import Mathlib

/-!
Verification development for a Terraforming Mars rules engine written in Rust.

The Rust sources are shallowly embedded here:
  * `resource.rs`  — resource and payment-cost enums;
  * `card.rs`      — the card catalog data model;
  * `board.rs`     — hex coordinates, tile locations, the Mars board and its
                     placement validator;
  * `game.rs`      — player state, the game-operation interpreter;
  * `sim.rs`       — the generation play search.

Conventions of the embedding:
  * Rust `usize` becomes `Nat`, `isize` becomes `Int`.
  * `HashMap`/`BTreeMap` fields become association lists (`List (k × v)`);
    the map's key-uniqueness is carried as `List.Nodup` hypotheses where it
    matters.  `HashSet` fields become plain lists.
  * The `resources` and `production` maps of a player always hold all six
    `Resource` keys (the builder constructs them that way and no code path
    removes a key), so they are embedded as six-field records.
  * A Rust function that can panic (`assert!`, `unwrap`, `unimplemented!`,
    `todo!`, `unreachable!`) is embedded as an `Option`-returning function;
    `none` models the panic/abort.
  * The one randomness boundary (`thread_rng` shuffling the discard pile in
    `DrawCards`) is modelled by an explicit `shuffle` function parameter.
-/

set_option autoImplicit false

namespace TerraformingMars

/-- Embeds `resource.rs` `Resource`. -/
inductive Resource where
  | Megacredits
  | Steel
  | Titanium
  | Plants
  | Energy
  | Heat
deriving DecidableEq, Repr

/-- Embeds `resource.rs` `CardResource`. -/
inductive CardResource where
  | Microbe
  | Plant
  | Animal
  | Science
  | Fighter
deriving DecidableEq, Repr

/-- Embeds `resource.rs` `PaymentCost`. -/
inductive PaymentCost where
  | Megacredits (x : Nat)
  | Space (x : Nat)
  | Building (x : Nat)
  | SpaceOrBuilding (x : Nat)
  | Steel (x : Nat)
  | Titanium (x : Nat)
  | Plants (x : Nat)
  | Energy (x : Nat)
  | Heat (x : Nat)
deriving DecidableEq, Repr

/-- Embeds `card.rs` `CardTag`. -/
inductive CardTag where
  | Building
  | Space
  | Power
  | Science
  | Jovian
  | Earth
  | Plant
  | Microbe
  | Animal
  | City
  | Wild
  | Event
deriving DecidableEq, Repr

/-- Embeds `card.rs` `CardRequirement`. -/
inductive CardRequirement where
  | MaxOxygen (x : Nat)
  | MinOxygen (x : Nat)
  | MaxTemperature (x : Int)
  | MinTemperature (x : Int)
  | MaxOceans (x : Nat)
  | MinOceans (x : Nat)
  | MinTags (tag : CardTag) (count : Nat)
  | MinOwnedGreeneries (count : Nat)
  | MinProduction (r : Resource) (amount : Nat)
deriving DecidableEq, Repr

/-- Embeds `card.rs` `CardKind`. -/
inductive CardKind where
  | Active
  | Automatic
  | Event
deriving DecidableEq, Repr

/-- Embeds `card.rs` `SpecialLocation`. -/
inductive SpecialLocation where
  | PhobosSpaceHaven
  | GanymedeColony
  | NoctisCity
  | VolcanicArea
deriving DecidableEq, Repr

/-- Embeds `card.rs` `CityKind`. -/
inductive CityKind where
  | RegularCity
  | Capital
  | NoctisCity
  | PhobosSpaceHaven
  | GanymedeColony
  | LavaTunnelCity
  | UrbanizedArea
  | ResearchOutpost
deriving DecidableEq, Repr

/-- Embeds `card.rs` `SpecialTile`. -/
inductive SpecialTile where
  | NuclearZone
  | RestrictedArea
  | LavaFlows
  | CommercialDistrict
  | NaturalPreserve
  | IndustrialCenter
  | MoholeArea
  | EcologicalZone
  | MiningRights
  | MiningArea
  | LandClaim
deriving DecidableEq, Repr

/-- Embeds `card.rs` `LocationRestriction`. -/
inductive LocationRestriction where
  | LandTile
  | ReservedForOcean
  | AdjacentToOwnedTile
  | AdjacentToOwnedTileIfAble
  | NotNextToAnyOtherTile
  | NotNextToACity
  | NextToACity
  | NextToAtLeastTwoCities
  | NextToAGreenery
  | OnSteelOrTitaniumPlacementBonus
  | AtSpecialLocation (loc : SpecialLocation)
deriving DecidableEq, Repr

/-- Embeds `card.rs` `ImmediateImpact` (`Box` payloads become direct fields,
`Vec` payloads become lists). -/
inductive ImmediateImpact where
  | RaiseTemperature
  | RaiseOxygen
  | RaiseTerraformRating
  | GainTerraformRatingPerOwnTag (n : Nat) (tag : CardTag) (per : Nat)
  | PlaceOcean (restrictions : List LocationRestriction)
  | PlaceGreenery (restrictions : List LocationRestriction)
  | PlaceCity (kind : CityKind) (restrictions : List LocationRestriction)
  | PlaceFloodingOcean (r : Resource) (n : Nat)
      (restrictions : List LocationRestriction)
  | DrawCard (n : Nat)
  | DiscardCard (n : Nat)
  | LookAndBuyFromDeck (n : Nat)
  | LookAndTakeFromDeck (look : Nat) (take : Nat)
  | AddResourceToSameCard (cr : CardResource) (n : Nat)
  | AddResourceToAnotherCard (cr : CardResource) (n : Nat)
  | AddResourceToAnyCard (cr : CardResource) (n : Nat)
  | AddResourceToPlayedCard (n : Nat)
  | AddResourceToAnyCardWithExistingResource (minResource : Nat) (add : Nat)
  | SpendResourceFromSameCard (cr : CardResource) (n : Nat)
      (impact : ImmediateImpact)
  | GainResource (r : Resource) (n : Nat)
  | SpendResource (r : Resource) (n : Nat)
  | GainResourcePerCity (r : Resource) (n : Nat)
  | GainResourcePerCityOnMars (r : Resource) (n : Nat)
  | ChangeProduction (r : Resource) (n : Int)
  | GainProductionPerCity (r : Resource) (n : Nat)
  | GainProductionPerCityOnMars (r : Resource) (n : Nat)
  | GainProductionIfMinTags (r : Resource) (n : Nat) (tag : CardTag)
      (count : Nat)
  | GainMiningProductionMatchingPlacementBonus (n : Nat)
  | GainProductionPerOwnTag (tag : CardTag) (count : Nat) (r : Resource)
      (n : Nat)
  | GainProductionPerOpponentTag (tag : CardTag) (count : Nat) (r : Resource)
      (n : Nat)
  | GainProductionPerAnyTag (tag : CardTag) (count : Nat) (r : Resource)
      (n : Nat)
  | TransformResource (src : Resource) (dst : Resource)
  | TransformProduction (src : Resource) (dst : Resource)
  | DestroyAnyResource (r : Resource) (n : Nat)
  | DestroyAnyCardResource (cr : CardResource) (n : Nat)
  | StealResource (r : Resource) (n : Nat)
  | PlaceSpecialTile (tile : SpecialTile)
      (restrictions : List LocationRestriction)
  | CopyProductionOfCard (tag : CardTag)
  | OneOf (choices : List ImmediateImpact)
  | Chained (first : ImmediateImpact) (second : ImmediateImpact)
deriving BEq, Repr

/-- Embeds `card.rs` `CardAction`. -/
inductive CardAction where
  | CauseFreeImpact (impact : ImmediateImpact)
  | SpendResource (cost : PaymentCost) (impacts : List ImmediateImpact)
  | SpendProduction (r : Resource) (n : Nat) (impacts : List ImmediateImpact)
  | SpendSameCardResource (cr : CardResource) (n : Nat)
      (impact : ImmediateImpact)
  | TakeAnyCardResource (cr : CardResource) (n : Nat)
      (impact : ImmediateImpact)
  | RandomizeBasedOnRevealedCardTag (r : Resource) (n : Nat) (tag : CardTag)
      (impact : ImmediateImpact)
deriving BEq, Repr

/-- Embeds `card.rs` `VictoryPointValue`. -/
inductive VictoryPointValue where
  | Immediate (x : Int)
  | PerNCities (n : Nat)
  | PerTag (vp : Nat) (count : Nat) (tag : CardTag)
  | PerCardResource (vp : Nat) (count : Nat) (cr : CardResource)
  | FixedPointsIfAnyCardResourcePresent (count : Nat) (cr : CardResource)
deriving DecidableEq, Repr

/-- Embeds `card.rs` `CardEffect`. -/
inductive CardEffect where
  | AnyCardDiscount (n : Nat)
  | CardDiscountForTag (tag : CardTag) (n : Nat)
  | IncreasedMetalsValue (n : Nat)
  | RebateForStandardProjects (n : Nat)
  | GlobalRequirementsTolerance (n : Nat)
  | CannotRemoveThisCardResource (cr : CardResource)
  | CannotRemoveAnyCardResources (crs : List CardResource)
  | OnAnyPlacedOcean (impact : ImmediateImpact)
  | OnAnyPlacedCity (impact : ImmediateImpact)
  | OnAnyTagPlayed (tag : CardTag) (impact : ImmediateImpact)
  | OnOwnPlacedGreenery (impact : ImmediateImpact)
  | OnOwnTagPlayed (tag : CardTag) (impact : ImmediateImpact)
  | OnOwnTagCombinationPlayed (tags : List CardTag)
      (impacts : List ImmediateImpact)
deriving BEq, Repr

/-- Embeds `card.rs` `Card` (the `BTreeMap<Resource, isize>` production
fields become association lists). -/
structure Card where
  name : String
  kind : CardKind
  tags : List CardTag
  cost : PaymentCost
  requirements : List CardRequirement
  points : Option VictoryPointValue
  own_production : List (Resource × Int)
  any_production : List (Resource × Int)
  immediate_impacts : List ImmediateImpact
  actions : List CardAction
  effects : List CardEffect
  next_card_this_generation_effects : List CardEffect
deriving BEq, Repr

/-- Embeds `game.rs` `PlayerId` (a `usize` newtype). -/
structure PlayerId where
  id : Nat
deriving DecidableEq, Repr

/-- Embeds `board.rs` `Coordinates`: cube hex coordinates with the implicit
third axis z = -(x + y). -/
structure Coordinates where
  x : Int
  y : Int
deriving DecidableEq, Repr

namespace Coordinates

/-- Embeds `Coordinates::BOUNDS_*` constants of `board.rs`. -/
def BOUNDS_MIN_X : Int := 0
def BOUNDS_MAX_X : Int := 8
def BOUNDS_MIN_Y : Int := -8
def BOUNDS_MAX_Y : Int := 0
def BOUNDS_MIN_Z : Int := -4
def BOUNDS_MAX_Z : Int := 4

/-- Embeds `Coordinates::NEIGHBORS_DX_DY`: the six clockwise neighbor
offsets, starting from the right neighbor. -/
def NEIGHBORS_DX_DY : List (Int × Int) :=
  [(1, -1), (0, -1), (-1, 0), (-1, 1), (0, 1), (1, 0)]

/-- Embeds `Coordinates::get_z`. -/
def get_z (c : Coordinates) : Int := -(c.x + c.y)

/-- Embeds `Coordinates::is_in_bounds`. -/
def is_in_bounds (c : Coordinates) : Bool :=
  let within_x := BOUNDS_MIN_X ≤ c.x && c.x ≤ BOUNDS_MAX_X
  let within_y := BOUNDS_MIN_Y ≤ c.y && c.y ≤ BOUNDS_MAX_Y
  let z := c.get_z
  let within_z := BOUNDS_MIN_Z ≤ z && z ≤ BOUNDS_MAX_Z
  within_x && within_y && within_z

/-- Embeds `Coordinates::neighbors_within_bounds` (the lazy iterator becomes
a list, in the same fixed order). -/
def neighbors_within_bounds (c : Coordinates) : List Coordinates :=
  (NEIGHBORS_DX_DY.map (fun d => Coordinates.mk (c.x + d.1) (c.y + d.2))).filter
    Coordinates.is_in_bounds

end Coordinates

/-- Embeds `board.rs` `TileLocation`. -/
inductive TileLocation where
  | OnMars (c : Coordinates)
  | OffMars (s : SpecialLocation)
deriving DecidableEq, Repr

/-- Embeds `TileLocation::neighbors_within_bounds`: coordinate neighbors when
on Mars, the empty sequence off Mars. -/
def TileLocation.neighbors_within_bounds : TileLocation → List TileLocation
  | .OnMars c => c.neighbors_within_bounds.map TileLocation.OnMars
  | .OffMars _ => []

/-- Embeds `board.rs` `TileStatus` (the `EmptyLocation` wrapper of the source
is a transparent newtype of `TileLocation` and is flattened away here). -/
inductive TileStatus where
  | Empty (loc : TileLocation)
  | Ocean (loc : TileLocation)
  | City (loc : TileLocation) (kind : CityKind) (owner : PlayerId)
  | Greenery (loc : TileLocation) (owner : PlayerId)
  | SpecialTile (loc : TileLocation) (tile : SpecialTile) (owner : PlayerId)
deriving BEq, Repr

/-- Embeds `board.rs` `Designation`. -/
inductive Designation where
  | Land
  | ReservedForOcean
  | VolcanicArea
  | NonMarsTile
  | Special (loc : SpecialLocation)
deriving DecidableEq, Repr

/-- Embeds `board.rs` `BoardSpace`. -/
structure BoardSpace where
  name : Option String
  location : TileLocation
  designations : List Designation
  placement_bonus : List ImmediateImpact
deriving BEq, Repr

/-- Embeds `BoardSpace::is_land`. -/
def BoardSpace.is_land (s : BoardSpace) : Bool :=
  s.designations.any (fun d => match d with | .Land => true | _ => false)

/-- Embeds `BoardSpace::is_reserved_for_ocean`. -/
def BoardSpace.is_reserved_for_ocean (s : BoardSpace) : Bool :=
  s.designations.any (fun d => match d with
    | .ReservedForOcean => true
    | _ => false)

/-- Embeds `board.rs` `MarsBoard`.  The `HashMap`/`HashSet` fields become
lists: `spaces`, `cities`, `greeneries` and `special_tiles` are association
lists and `oceans` a plain list of coordinates; key-uniqueness of the hash
containers is carried as `List.Nodup` hypotheses where a theorem needs it. -/
structure MarsBoard where
  board_name : String
  spaces : List (TileLocation × BoardSpace)
  cities : List (TileLocation × (CityKind × PlayerId))
  oceans : List Coordinates
  greeneries : List (Coordinates × PlayerId)
  special_tiles : List (Coordinates × (SpecialTile × PlayerId))
  oxygen : Nat
  temperature : Int
deriving BEq, Repr

/-- Embeds the player `resources` map of `game.rs`.  The source stores a
`BTreeMap<Resource, usize>` that always holds all six keys (the builder
fills them all and no path removes a key), so a six-field record is used. -/
structure Resources where
  megacredits : Nat
  steel : Nat
  titanium : Nat
  plants : Nat
  energy : Nat
  heat : Nat
deriving DecidableEq, Repr

/-- Reads one key of the `resources` map, as `resources[&key]` does. -/
def Resources.get (r : Resources) : Resource → Nat
  | .Megacredits => r.megacredits
  | .Steel => r.steel
  | .Titanium => r.titanium
  | .Plants => r.plants
  | .Energy => r.energy
  | .Heat => r.heat

/-- Writes one key of the `resources` map, as `resources.insert(key, v)`
does on a map already holding the key. -/
def Resources.set (r : Resources) : Resource → Nat → Resources
  | .Megacredits, v => { r with megacredits := v }
  | .Steel, v => { r with steel := v }
  | .Titanium, v => { r with titanium := v }
  | .Plants, v => { r with plants := v }
  | .Energy, v => { r with energy := v }
  | .Heat, v => { r with heat := v }

/-- Embeds the player `production` map of `game.rs`
(`BTreeMap<Resource, isize>`, always holding all six keys). -/
structure Production where
  megacredits : Int
  steel : Int
  titanium : Int
  plants : Int
  energy : Int
  heat : Int
deriving DecidableEq, Repr

/-- Reads one key of the `production` map. -/
def Production.get (p : Production) : Resource → Int
  | .Megacredits => p.megacredits
  | .Steel => p.steel
  | .Titanium => p.titanium
  | .Plants => p.plants
  | .Energy => p.energy
  | .Heat => p.heat

/-- Writes one key of the `production` map. -/
def Production.set (p : Production) : Resource → Int → Production
  | .Megacredits, v => { p with megacredits := v }
  | .Steel, v => { p with steel := v }
  | .Titanium, v => { p with titanium := v }
  | .Plants, v => { p with plants := v }
  | .Energy, v => { p with energy := v }
  | .Heat, v => { p with heat := v }

/-- Embeds `game.rs` `PlayerState`.  `card_resources` is the
`BTreeMap<(Card, CardResource), usize>` as an association list and
`tapped_active_cards` the `HashSet<Card>` as a list. -/
structure PlayerState where
  player_id : PlayerId
  resources : Resources
  production : Production
  played_cards : List Card
  card_resources : List ((Card × CardResource) × Nat)
  tapped_active_cards : List Card
  cards_in_hand : List Card
  terraform_rating : Nat
  steel_value : Nat
  titanium_value : Nat
  next_card_this_generation_effects : List CardEffect
  effects : List CardEffect
deriving BEq, Repr

/-- Embeds `game.rs` `TurnAction`. -/
inductive TurnAction where
  | PlayStandardProject
  | PlayCard (card : Card)
  | PerformAction (action : CardAction)
  | ClaimMilestone
  | FundAward
deriving BEq, Repr

/-- Embeds `game.rs` `GameOperation` (the `BTreeMap<Resource, isize>` deltas
become association lists). -/
inductive GameOperation where
  | ChangeResources (pid : PlayerId) (deltas : List (Resource × Int))
  | ChangeProduction (pid : PlayerId) (deltas : List (Resource × Int))
  | ChangeCardResource (pid : PlayerId) (card : Card) (cr : CardResource)
      (amount : Int)
  | DrawCards (pid : PlayerId) (count : Nat)
  | DiscardCards (pid : PlayerId) (discard : List Card)
  | PutCardIntoPlay (pid : PlayerId) (card : Card)
  | PlaceCityTile (pid : PlayerId) (kind : CityKind) (loc : TileLocation)
  | PlaceGreenery (pid : PlayerId) (c : Coordinates)
  | PlaceSpecialTile (pid : PlayerId) (tile : SpecialTile) (c : Coordinates)
  | PlaceOcean (c : Coordinates)
  | RaiseTemperature
  | RaiseOxygen
  | RaiseTerraformRating (pid : PlayerId) (amount : Nat)
  | AddEffect (pid : PlayerId) (effect : CardEffect)
  | MarkCardActionUsed (pid : PlayerId) (card : Card)
  | ResetCardActions
  | ClaimMilestone
  | FundAward
deriving BEq, Repr

/-- Embeds `game.rs` `Game` (the `HashMap<PlayerId, PlayerState>` becomes an
association list). -/
structure Game where
  board : MarsBoard
  players : List (PlayerId × PlayerState)
  draw_deck : List Card
  discard_pile : List Card
deriving BEq, Repr

/-- Association-list lookup with propositional key equality; this is the
embedding of `HashMap::get` / `BTreeMap::get` on the list representation. -/
def alookup {κ ν : Type} [DecidableEq κ] : List (κ × ν) → κ → Option ν
  | [], _ => none
  | e :: rest, k => if k = e.1 then some e.2 else alookup rest k

/-- Replaces the value stored at a key that is already present; entries with
other keys are kept in place.  Models in-place mutation through
`HashMap::get_mut`. -/
def aupdate {κ ν : Type} [DecidableEq κ] : List (κ × ν) → κ → ν → List (κ × ν)
  | [], _, _ => []
  | e :: rest, k, v => if k = e.1 then (k, v) :: rest else e :: aupdate rest k v

theorem alookup_cons {κ ν : Type} [DecidableEq κ] (e : κ × ν)
    (l : List (κ × ν)) (k : κ) :
    alookup (e :: l) k = if k = e.1 then some e.2 else alookup l k := rfl

theorem alookup_isSome_iff_mem {κ ν : Type} [DecidableEq κ]
    (l : List (κ × ν)) (k : κ) :
    (alookup l k).isSome ↔ k ∈ l.map Prod.fst := by
  induction l with
  | nil => simp [alookup]
  | cons e rest ih =>
    by_cases h : k = e.1
    · subst h
      simp [alookup]
    · simp [alookup, h, ih]

namespace MarsBoard

/-- Modelled from the spec: the constants `MarsBoard::MAX_OCEANS`,
`MAX_OXYGEN`, `OXYGEN_INCREMENT`, `MAX_TEMPERATURE` and
`TEMPERATURE_INCREMENT` are referenced by the interpreter in `game.rs` but
their definitions are absent from the sources; the spec only states that
oxygen lies in `0..=MAX_OXYGEN`, that temperature is stepped by a fixed
increment up to `MAX_TEMPERATURE`, and that the ocean count is capped at
`MAX_OCEANS`, without fixing the numbers; the standard board-game values are
used.  No claim's conclusion depends on the concrete values. -/
def MAX_OCEANS : Nat := 9

/-- Modelled from the spec: see `MAX_OCEANS`. -/
def MAX_OXYGEN : Nat := 14

/-- Modelled from the spec: see `MAX_OCEANS`. -/
def OXYGEN_INCREMENT : Nat := 1

/-- Modelled from the spec: see `MAX_OCEANS`. -/
def MAX_TEMPERATURE : Int := 8

/-- Modelled from the spec: see `MAX_OCEANS`. -/
def TEMPERATURE_INCREMENT : Int := 2

/-- Embeds `MarsBoard::get_tile_status`: city, then (on Mars) ocean, then
greenery, then special tile, then empty. -/
def get_tile_status (b : MarsBoard) (loc : TileLocation) : TileStatus :=
  match alookup b.cities loc with
  | some ck => TileStatus.City loc ck.1 ck.2
  | none =>
    match loc with
    | .OffMars _ => TileStatus.Empty loc
    | .OnMars coordinates =>
      if coordinates ∈ b.oceans then TileStatus.Ocean loc
      else
        match alookup b.greeneries coordinates with
        | some pid => TileStatus.Greenery loc pid
        | none =>
          match alookup b.special_tiles coordinates with
          | some tp => TileStatus.SpecialTile loc tp.1 tp.2
          | none => TileStatus.Empty loc

/-- Embeds `MarsBoard::get_neighbor_tile_status`. -/
def get_neighbor_tile_status (b : MarsBoard) (loc : TileLocation) :
    List TileStatus :=
  loc.neighbors_within_bounds.map (get_tile_status b)

/-- Embeds `MarsBoard::count_adjacent_oceans`. -/
def count_adjacent_oceans (b : MarsBoard) (loc : TileLocation) : Nat :=
  (get_neighbor_tile_status b loc).countP (fun st => match st with
    | .Ocean _ => true
    | _ => false)

/-- Embeds `MarsBoard::new`.  The source gathers every occupied location
into a `HashSet` and asserts that its cardinality equals the sum of the four
index sizes; the hash-set cardinality is `List.dedup.length` here, and the
failed assertion is `none`. -/
def new (board_name : String) (spaces : List (TileLocation × BoardSpace))
    (cities : List (TileLocation × (CityKind × PlayerId)))
    (oceans : List Coordinates) (greeneries : List (Coordinates × PlayerId))
    (special_tiles : List (Coordinates × (SpecialTile × PlayerId)))
    (oxygen : Nat) (temperature : Int) : Option MarsBoard :=
  let occupied_locations : List TileLocation :=
    cities.map Prod.fst ++ oceans.map TileLocation.OnMars ++
      (greeneries.map Prod.fst).map TileLocation.OnMars ++
      (special_tiles.map Prod.fst).map TileLocation.OnMars
  if occupied_locations.dedup.length =
      cities.length + oceans.length + greeneries.length +
        special_tiles.length then
    some (MarsBoard.mk board_name spaces cities oceans greeneries
      special_tiles oxygen temperature)
  else none

end MarsBoard

/-- Counts of the non-empty, greenery, city and player-owned tiles adjacent
to a location, as computed by the counting loop at the top of
`MarsBoard::can_place_city`.  The four counters are returned in the order
they are declared in the source: tiles of any kind, greeneries, cities,
owned tiles. -/
def adjacency_counts (b : MarsBoard) (pid : PlayerId) (loc : TileLocation) :
    Nat × Nat × Nat × Nat :=
  (b.get_neighbor_tile_status loc).foldl
    (fun acc status =>
      let any_kind := acc.1 + (match status with
        | .Empty _ => 0
        | _ => 1)
      let greeneries := acc.2.1 + (match status with
        | .Greenery _ _ => 1
        | _ => 0)
      let cities := acc.2.2.1 + (match status with
        | .City _ _ _ => 1
        | _ => 0)
      let owned := acc.2.2.2 + (match status with
        | .City _ _ owner_id => if owner_id = pid then 1 else 0
        | .Greenery _ owner_id => if owner_id = pid then 1 else 0
        | .SpecialTile _ _ owner_id => if owner_id = pid then 1 else 0
        | _ => 0)
      (any_kind, greeneries, cities, owned))
    (0, 0, 0, 0)

def adjacent_tiles_of_any_kind (b : MarsBoard) (loc : TileLocation) : Nat :=
  (adjacency_counts b (PlayerId.mk 0) loc).1

def adjacent_greeneries_count (b : MarsBoard) (loc : TileLocation) : Nat :=
  (adjacency_counts b (PlayerId.mk 0) loc).2.1

def adjacent_cities_count (b : MarsBoard) (loc : TileLocation) : Nat :=
  (adjacency_counts b (PlayerId.mk 0) loc).2.2.1

def adjacent_owned_tiles (b : MarsBoard) (pid : PlayerId)
    (loc : TileLocation) : Nat :=
  (adjacency_counts b pid loc).2.2.2

/-- Embeds one arm of the restriction loop of `MarsBoard::can_place_city`:
`some true` means the restriction passes, `some false` means it is violated
(the source returns `None`), and `none` models the `unimplemented!()` panic
of the `AdjacentToOwnedTileIfAble` arm. -/
def check_restriction (b : MarsBoard) (pid : PlayerId) (loc : TileLocation)
    (space : BoardSpace) : LocationRestriction → Option Bool
  | .LandTile => some space.is_land
  | .ReservedForOcean => some space.is_reserved_for_ocean
  | .OnSteelOrTitaniumPlacementBonus =>
      some (space.placement_bonus.any (fun impact => match impact with
        | .GainResource Resource.Steel _ => true
        | .GainResource Resource.Titanium _ => true
        | _ => false))
  | .AtSpecialLocation special_location =>
      some (space.designations.any (fun d => match d with
        | .Special s => decide (s = special_location)
        | _ => false))
  | .AdjacentToOwnedTile =>
      some (decide (adjacent_owned_tiles b pid loc ≠ 0))
  | .AdjacentToOwnedTileIfAble => none
  | .NotNextToAnyOtherTile =>
      some (decide (adjacent_tiles_of_any_kind b loc = 0))
  | .NotNextToACity => some (decide (adjacent_cities_count b loc = 0))
  | .NextToACity => some (decide (1 ≤ adjacent_cities_count b loc))
  | .NextToAtLeastTwoCities =>
      some (decide (2 ≤ adjacent_cities_count b loc))
  | .NextToAGreenery =>
      some (decide (1 ≤ adjacent_greeneries_count b loc))

/-- Runs the restriction loop of `MarsBoard::can_place_city` in list order:
`some true` when every restriction passes, `some false` at the first
violated restriction, `none` at the first panicking arm. -/
def check_restrictions (b : MarsBoard) (pid : PlayerId) (loc : TileLocation)
    (space : BoardSpace) : List LocationRestriction → Option Bool
  | [] => some true
  | r :: rest =>
    match check_restriction b pid loc space r with
    | none => none
    | some false => some false
    | some true => check_restrictions b pid loc space rest

/-- Embeds `MarsBoard::can_place_city`.  The source mutates `self` and
returns `Option<()>`; here the outer `Option` models panics (the `unwrap`
of a location absent from `spaces`, the `unimplemented!()` restriction arm
and the insertion assert), and the inner pair carries the source's
`Option<()>` result together with the (possibly updated) board. -/
def can_place_city (b : MarsBoard) (player : PlayerState)
    (loc : TileLocation) (city_kind : CityKind)
    (location_restrictions : List LocationRestriction) :
    Option (Option Unit × MarsBoard) :=
  match alookup b.spaces loc with
  | none => none
  | some board_space =>
    match check_restrictions b player.player_id loc board_space
        location_restrictions with
    | none => none
    | some false => some (none, b)
    | some true =>
      match alookup b.cities loc with
      | some _ => none
      | none =>
        some (some (),
          { b with cities := (loc, (city_kind, player.player_id)) :: b.cities })

/-- Association-list lookup with boolean key equality, used where the key
type (pairs involving `Card`) carries `BEq` rather than `DecidableEq`. -/
def blookup {κ ν : Type} [BEq κ] : List (κ × ν) → κ → Option ν
  | [], _ => none
  | e :: rest, k => if k == e.1 then some e.2 else blookup rest k

/-- Embeds `game.rs` `CARD_PURCHASE_COST`. -/
def CARD_PURCHASE_COST : Nat := 3

/-- Embeds `game.rs` `DEFAULT_STEEL_VALUE`. -/
def DEFAULT_STEEL_VALUE : Nat := 2

/-- Embeds `game.rs` `DEFAULT_TITANIUM_VALUE`. -/
def DEFAULT_TITANIUM_VALUE : Nat := 3

/-- Embeds `ActiveTags::get_non_event_tags` for `Vec<Card>`: tags of all
played cards, skipping `Event`-kind cards entirely. -/
def get_non_event_tags (cards : List Card) : List CardTag :=
  cards.foldr (fun card acc =>
    (match card.kind with
      | CardKind.Event => []
      | _ => card.tags) ++ acc) []

/-- Embeds `ActiveTags::active_tag_count` for `Vec<Card>`; the
`assert_ne!(tag_kind, CardTag::Event)` panic is `none`. -/
def active_tag_count (cards : List Card) (tag_kind : CardTag) : Option Nat :=
  if tag_kind = CardTag.Event then none
  else some ((get_non_event_tags cards).countP (fun tag => decide (tag = tag_kind)))

/-- Embeds `PlayerState::purchase_cards`.  The source mutates `self` and
returns `Option<()>`; here failure is `none` (the source leaves the player
untouched in that case) and success returns the updated player. -/
def purchase_cards (s : PlayerState) (cards : List Card) :
    Option PlayerState :=
  let megacredits_balance := s.resources.megacredits
  let megacredits_cost := cards.length * CARD_PURCHASE_COST
  if megacredits_balance < megacredits_cost then none
  else
    some { s with
      cards_in_hand := s.cards_in_hand ++ cards,
      resources :=
        { s.resources with
          megacredits := megacredits_balance - megacredits_cost } }

/-- Embeds one arm of the closure the source feeds to
`card.requirements.iter().any(...)` inside `PlayerState::can_play_card`,
verbatim.  Note that every arm of the source match computes the condition
under which the requirement HOLDS (for instance `MinOxygen(m)` yields
`board.oxygen >= m`), even though the `any()` result is then bound to
`fails_requirements`.  `none` models the panic of `active_tag_count` when
the queried tag is `Event`. -/
def requirement_arm (s : PlayerState) (b : MarsBoard) :
    CardRequirement → Option Bool
  | .MaxOxygen max_oxygen => some (decide (b.oxygen ≤ max_oxygen))
  | .MinOxygen min_oxygen => some (decide (b.oxygen ≥ min_oxygen))
  | .MaxTemperature max_temp => some (decide (b.temperature ≤ max_temp))
  | .MinTemperature min_temp => some (decide (b.temperature ≥ min_temp))
  | .MaxOceans max_oceans => some (decide (b.oceans.length ≤ max_oceans))
  | .MinOceans min_oceans => some (decide (b.oceans.length ≥ min_oceans))
  | .MinOwnedGreeneries min_greeneries =>
      let owned_greeneries :=
        b.greeneries.countP (fun g => decide (s.player_id = g.2))
      some (decide (owned_greeneries ≥ min_greeneries))
  | .MinTags tag count =>
      (active_tag_count s.played_cards tag).map (fun n => decide (n ≥ count))
  | .MinProduction r amount =>
      some (decide (s.production.get r ≥ (amount : Int)))

/-- Embeds the short-circuiting `any()` over `requirement_arm`, as
`Iterator::any` stops at the first `true`. -/
def fails_requirements_any (s : PlayerState) (b : MarsBoard) :
    List CardRequirement → Option Bool
  | [] => some false
  | r :: rest =>
    match requirement_arm s b r with
    | none => none
    | some true => some true
    | some false => fails_requirements_any s b rest

/-- Embeds `PlayerState::can_play_card`.  The outer `Option` models panics
(`unreachable!()` for cost classes other than the four handled ones, and
the `Event`-tag assert inside tag counting); the inner `Option PaymentCost`
is the source's return value. -/
def can_play_card (s : PlayerState) (b : MarsBoard) (card : Card) :
    Option (Option PaymentCost) :=
  let megacredits_balance := s.resources.megacredits
  match fails_requirements_any s b card.requirements with
  | none => none
  | some fails_requirements =>
    if fails_requirements then some none
    else
      let can_pay : Option Bool :=
        match card.cost with
        | .Megacredits x => some (decide (x ≤ megacredits_balance))
        | .Building x =>
            let steel_balance := s.resources.steel
            some (decide (x ≤ megacredits_balance + steel_balance * s.steel_value))
        | .Space x =>
            let titanium_balance := s.resources.titanium
            some (decide (x ≤ megacredits_balance + titanium_balance * s.titanium_value))
        | .SpaceOrBuilding x =>
            let steel_balance := s.resources.steel
            let titanium_balance := s.resources.titanium
            some (decide (x ≤ megacredits_balance + steel_balance * s.steel_value +
              titanium_balance * s.titanium_value))
        | _ => none
      match can_pay with
      | none => none
      | some can_pay =>
        if can_pay then some (some card.cost) else some none

/-- Applies one production delta to one resource balance, with the
`assert!(new_val >= 0)` of `PlayerState::advance_generation` as `none`. -/
def add_production (v : Nat) (p : Int) : Option Nat :=
  let new_val : Int := (v : Int) + p
  if 0 ≤ new_val then some new_val.toNat else none

/-- Applies the production loop of `PlayerState::advance_generation` to all
six resources (each entry of the map is adjusted independently). -/
def apply_production (r : Resources) (p : Production) : Option Resources := do
  let megacredits ← add_production r.megacredits p.megacredits
  let steel ← add_production r.steel p.steel
  let titanium ← add_production r.titanium p.titanium
  let plants ← add_production r.plants p.plants
  let energy ← add_production r.energy p.energy
  let heat ← add_production r.heat p.heat
  some (Resources.mk megacredits steel titanium plants energy heat)

/-- Embeds `PlayerState::advance_generation`: energy converts to heat, the
terraform rating is added to megacredits, production is applied (asserting
every balance stays non-negative), and the tapped-card and
next-card-this-generation lists are cleared. -/
def advance_generation (s : PlayerState) : Option PlayerState :=
  let current_energy := s.resources.energy
  let after_energy :=
    { s.resources with
      heat := s.resources.heat + current_energy,
      energy := 0 }
  let after_rating :=
    { after_energy with
      megacredits := after_energy.megacredits + s.terraform_rating }
  match apply_production after_rating s.production with
  | none => none
  | some new_resources =>
    some { s with
      resources := new_resources,
      tapped_active_cards := [],
      next_card_this_generation_effects := [] }

/-- Embeds the per-card victory-point evaluation inside
`PlayerState::get_total_victory_points`.  `none` models the panics: the
`Event`-tag asserts of `PerTag`, and the `usize` division panics when a
formula's divisor is zero. -/
def card_points (s : PlayerState) (b : MarsBoard) (c : Card) : Option Int :=
  match c.points with
  | none => some 0
  | some (.Immediate x) => some x
  | some (.PerTag vp count tag) =>
    if tag = CardTag.Event then none
    else
      match active_tag_count s.played_cards tag with
      | none => none
      | some tag_count =>
        if count = 0 then none
        else some ((tag_count / count * vp : Nat) : Int)
  | some (.PerCardResource vp count cr) =>
    let resources_present := (blookup s.card_resources (c, cr)).getD 0
    if count = 0 then none
    else some ((resources_present / count * vp : Nat) : Int)
  | some (.FixedPointsIfAnyCardResourcePresent count cr) =>
    let resources_present := (blookup s.card_resources (c, cr)).getD 0
    some (if resources_present > 0 then (count : Int) else 0)
  | some (.PerNCities n_cities) =>
    if n_cities = 0 then none
    else some ((b.cities.length / n_cities : Nat) : Int)

/-- Sums `card_points` over the played cards, as the source's
`.map(...).sum()`. -/
def sum_card_points (s : PlayerState) (b : MarsBoard) : Option Int :=
  s.played_cards.foldlM (fun acc c => (card_points s b c).map (fun x => acc + x)) 0

/-- Embeds `PlayerState::get_total_victory_points`: terraform rating, plus
card formulas, plus one point per owned greenery, plus per-owned-city
bonuses (adjacent oceans for capitals, adjacent greeneries for every owned
city).  Pure; `none` models the card-formula panics. -/
def get_total_victory_points (s : PlayerState) (b : MarsBoard) : Option Int :=
  match sum_card_points s b with
  | none => none
  | some card_pts =>
    some ((s.terraform_rating : Int) + card_pts +
      (b.greeneries.countP (fun g => decide (g.2 = s.player_id)) : Int) +
      (((b.cities.filter (fun entry => decide (entry.2.2 = s.player_id))).foldl
        (fun acc entry =>
          acc + ((if entry.2.1 = CityKind.Capital then
              (b.get_neighbor_tile_status entry.1).countP (fun st =>
                match st with
                | .Ocean _ => true
                | _ => false)
            else 0) +
            (b.get_neighbor_tile_status entry.1).countP (fun st =>
              match st with
              | .Greenery _ _ => true
              | _ => false))) 0 : Nat) : Int))

/-- Embeds `Card::supports_card_resource`.  The outer `Option` models the
`assert_eq!` panics when a card mixes two different card-resource kinds. -/
def supports_card_resource (c : Card) : Option (Option CardResource) :=
  let first_pass : Option (Option CardResource × List ImmediateImpact) :=
    c.actions.foldlM (fun acc action =>
      match action with
      | .SpendSameCardResource cr _ impact =>
        (match acc.1 with
          | some prev =>
            if prev = cr then some (some cr, acc.2 ++ [impact]) else none
          | none => some (some cr, acc.2 ++ [impact]))
      | .CauseFreeImpact impact => some (acc.1, acc.2 ++ [impact])
      | .TakeAnyCardResource _ _ impact => some (acc.1, acc.2 ++ [impact])
      | .RandomizeBasedOnRevealedCardTag _ _ _ impact =>
          some (acc.1, acc.2 ++ [impact])
      | .SpendResource _ impacts => some (acc.1, acc.2 ++ impacts)
      | .SpendProduction _ _ impacts => some (acc.1, acc.2 ++ impacts))
      (none, [])
  match first_pass with
  | none => none
  | some (result0, possible_impacts) =>
    possible_impacts.foldlM (fun result impact =>
      match impact with
      | ImmediateImpact.AddResourceToSameCard cr _ =>
        (match result with
          | some prev => if prev = cr then some (some cr) else none
          | none => some (some cr))
      | _ => some result) result0

/-- Replaces the value stored under a key (boolean equality version of
`aupdate`). -/
def bupdate {κ ν : Type} [BEq κ] : List (κ × ν) → κ → ν → List (κ × ν)
  | [], _, _ => []
  | e :: rest, k, v => if k == e.1 then (k, v) :: rest else e :: bupdate rest k v

/-- Looks up a player (`players.get_mut(&player_id).unwrap()`, with the
`unwrap` panic as `none`), applies an update to it, and writes it back. -/
def with_player (g : Game) (pid : PlayerId)
    (f : PlayerState → Option PlayerState) : Option Game :=
  match alookup g.players pid with
  | none => none
  | some player =>
    (f player).map (fun p2 => { g with players := aupdate g.players pid p2 })

/-- Embeds the delta loop of `GameOperation::ChangeResources`: zero deltas
are skipped and each resulting balance is asserted non-negative. -/
def change_resources_loop (res : Resources) :
    List (Resource × Int) → Option Resources
  | [] => some res
  | (r, change) :: rest =>
    if change = 0 then change_resources_loop res rest
    else
      let new_value : Int := (res.get r : Int) + change
      if 0 ≤ new_value then
        change_resources_loop (res.set r new_value.toNat) rest
      else none

/-- Embeds the delta loop of `GameOperation::ChangeProduction`: megacredit
production may go as low as minus the terraform rating, every other
production is asserted non-negative. -/
def change_production_loop (terraform_rating : Nat) (p : Production) :
    List (Resource × Int) → Option Production
  | [] => some p
  | (r, change) :: rest =>
    if change = 0 then change_production_loop terraform_rating p rest
    else
      let new_value : Int := p.get r + change
      if r = Resource.Megacredits then
        if 0 ≤ (terraform_rating : Int) + new_value then
          change_production_loop terraform_rating (p.set r new_value) rest
        else none
      else
        if 0 ≤ new_value then
          change_production_loop terraform_rating (p.set r new_value) rest
        else none

/-- Embeds `Game::execute_operation`, the single mutation gateway of the
interpreter.  Every `assert!`/`unwrap`/`todo!` panic is `none`.  The
`thread_rng` shuffle of the discard pile inside `DrawCards` is the explicit
`shuffle` parameter. -/
def execute_operation (shuffle : List Card → List Card) (g : Game) :
    GameOperation → Option Game
  | .ChangeResources pid deltas =>
    with_player g pid (fun player =>
      (change_resources_loop player.resources deltas).map
        (fun res => { player with resources := res }))
  | .ChangeProduction pid deltas =>
    with_player g pid (fun player =>
      (change_production_loop player.terraform_rating player.production
        deltas).map (fun p => { player with production := p }))
  | .ChangeCardResource pid card card_resource amount =>
    with_player g pid (fun player =>
      match supports_card_resource card with
      | none => none
      | some supported =>
        if supported = some card_resource then
          match blookup player.card_resources (card, card_resource) with
          | some quantity =>
            let new_quantity : Int := (quantity : Int) + amount
            if 0 ≤ new_quantity then
              some { player with
                card_resources := bupdate player.card_resources
                  (card, card_resource) new_quantity.toNat }
            else none
          | none =>
            if 0 ≤ amount then
              some { player with
                card_resources := player.card_resources ++
                  [((card, card_resource), amount.toNat)] }
            else none
        else none)
  | .DrawCards pid count =>
    match alookup g.players pid with
    | none => none
    | some player =>
      if count > g.draw_deck.length then
        -- The whole deck is drained into the hand; the source then runs
        -- `count -= self.draw_deck.len()` on the ALREADY EMPTIED deck, so
        -- `count` is left unchanged, and the shuffled discard pile becomes
        -- the new deck.
        let hand1 := player.cards_in_hand ++ g.draw_deck
        let drained_deck : List Card := []
        let count1 := count - drained_deck.length
        let deck1 := drained_deck ++ shuffle g.discard_pile
        if count1 ≤ deck1.length then
          some { g with
            players := aupdate g.players pid
              { player with
                cards_in_hand := hand1 ++ deck1.drop (deck1.length - count1) },
            draw_deck := deck1.take (deck1.length - count1),
            discard_pile := [] }
        else none
      else
        -- `count <= draw_deck.len()` holds, so the assert passes and the
        -- last `count` cards of the deck are drained into the hand.
        some { g with
          players := aupdate g.players pid
            { player with
              cards_in_hand := player.cards_in_hand ++
                g.draw_deck.drop (g.draw_deck.length - count) },
          draw_deck := g.draw_deck.take (g.draw_deck.length - count) }
  | .DiscardCards pid discard =>
    match alookup g.players pid with
    | none => none
    | some player =>
      let initial_hand_size := player.cards_in_hand.length
      let new_hand :=
        player.cards_in_hand.filter (fun card => !(discard.contains card))
      if initial_hand_size = new_hand.length + discard.length then
        some { g with
          players := aupdate g.players pid
            { player with cards_in_hand := new_hand },
          discard_pile := g.discard_pile ++ discard }
      else none
  | .PutCardIntoPlay pid played_card =>
    with_player g pid (fun player =>
      let initial_hand_size := player.cards_in_hand.length
      let new_hand :=
        player.cards_in_hand.filter (fun card => !(card == played_card))
      if initial_hand_size = new_hand.length + 1 then
        some { player with
          cards_in_hand := new_hand,
          played_cards := player.played_cards ++ [played_card] }
      else none)
  | .PlaceCityTile pid city_kind loc =>
    match loc with
    | .OnMars coordinates =>
      if (alookup g.board.greeneries coordinates).isNone &&
          (alookup g.board.special_tiles coordinates).isNone &&
          !(decide (coordinates ∈ g.board.oceans)) then
        if (alookup g.board.cities (TileLocation.OnMars coordinates)).isNone then
          some { g with
            board :=
              { g.board with
                cities := (TileLocation.OnMars coordinates, (city_kind, pid)) ::
                  g.board.cities } }
        else none
      else none
    | .OffMars special_location =>
      if (alookup g.board.cities (TileLocation.OffMars special_location)).isNone then
        some { g with
          board :=
            { g.board with
              cities := (TileLocation.OffMars special_location, (city_kind, pid)) ::
                g.board.cities } }
      else none
  | .PlaceGreenery pid coordinates =>
    if (alookup g.board.cities (TileLocation.OnMars coordinates)).isNone &&
        (alookup g.board.special_tiles coordinates).isNone &&
        !(decide (coordinates ∈ g.board.oceans)) then
      if (alookup g.board.greeneries coordinates).isNone then
        some { g with
          board :=
            { g.board with
              greeneries := (coordinates, pid) :: g.board.greeneries } }
      else none
    else none
  | .PlaceSpecialTile pid tile coordinates =>
    if (alookup g.board.cities (TileLocation.OnMars coordinates)).isNone &&
        (alookup g.board.greeneries coordinates).isNone &&
        !(decide (coordinates ∈ g.board.oceans)) then
      if (alookup g.board.special_tiles coordinates).isNone then
        some { g with
          board :=
            { g.board with
              special_tiles :=
                (coordinates, (tile, pid)) :: g.board.special_tiles } }
      else none
    else none
  | .PlaceOcean coordinates =>
    if (alookup g.board.cities (TileLocation.OnMars coordinates)).isNone &&
        (alookup g.board.greeneries coordinates).isNone &&
        (alookup g.board.special_tiles coordinates).isNone then
      if g.board.oceans.length < MarsBoard.MAX_OCEANS then
        if !(decide (coordinates ∈ g.board.oceans)) then
          some { g with
            board := { g.board with oceans := coordinates :: g.board.oceans } }
        else none
      else none
    else none
  | .RaiseTemperature =>
    if g.board.temperature < MarsBoard.MAX_TEMPERATURE then
      some { g with
        board :=
          { g.board with
            temperature := g.board.temperature +
              MarsBoard.TEMPERATURE_INCREMENT } }
    else none
  | .RaiseOxygen =>
    if g.board.oxygen < MarsBoard.MAX_OXYGEN then
      some { g with
        board :=
          { g.board with oxygen := g.board.oxygen + MarsBoard.OXYGEN_INCREMENT } }
    else none
  | .RaiseTerraformRating pid amount =>
    with_player g pid (fun player =>
      some { player with terraform_rating := player.terraform_rating + amount })
  | .AddEffect pid effect =>
    with_player g pid (fun player =>
      some { player with effects := player.effects ++ [effect] })
  | .MarkCardActionUsed pid card =>
    with_player g pid (fun player =>
      some { player with
        tapped_active_cards :=
          if player.tapped_active_cards.contains card then
            player.tapped_active_cards
          else player.tapped_active_cards ++ [card] })
  | .ResetCardActions =>
    some { g with
      players := g.players.map (fun e =>
        (e.1, { e.2 with tapped_active_cards := [] })) }
  | .ClaimMilestone => none
  | .FundAward => none

/-- Applies a list of operations in order through `execute_operation`,
stopping at the first panic. -/
def exec_sequence (shuffle : List Card → List Card) (g : Game) :
    List GameOperation → Option Game
  | [] => some g
  | op :: rest =>
    match execute_operation shuffle g op with
    | none => none
    | some g2 => exec_sequence shuffle g2 rest

/-- Modelled from the spec: `PlayerState::play_card(card_index)` is invoked
by the generation search in `sim.rs` but its definition is absent from the
sources (only the caller appears).  Per the spec, playing a card requires
its requirements to be satisfied and its cost to be affordable, and a
successful play pays the cost and moves the card from the hand into the
played cards (`PutCardIntoPlay`); an unplayable card leaves the state
unchanged.  The search path carries no board, so board-global requirements
cannot be consulted there: a card is modelled as playable exactly when its
requirement list is empty and its cost is plain megacredits within the
megacredit balance; a successful play deducts the cost and moves the card
at the given hand index into the played cards. -/
def play_card (s : PlayerState) (card_index : Nat) : Option PlayerState :=
  match s.cards_in_hand[card_index]? with
  | none => none
  | some card =>
    match card.cost with
    | PaymentCost.Megacredits x =>
      if card.requirements.isEmpty && decide (x ≤ s.resources.megacredits) then
        some { s with
          resources :=
            { s.resources with megacredits := s.resources.megacredits - x },
          cards_in_hand := s.cards_in_hand.eraseIdx card_index,
          played_cards := s.played_cards ++ [card] }
      else none
    | _ => none

/-- Fuel-indexed core of `make_all_possible_plays_recursively` of `sim.rs`.
The source recursion advances a cursor over `cards_in_hand` and terminates
when the cursor runs off the hand; the fuel argument is an upper bound on
the number of remaining cursor positions (`play_card` never grows the
hand), so with fuel `cards_in_hand.length - index` the two zero tests
coincide and this function computes exactly the source recursion.  At each
position the state either advances by playing the considered card (when
`play_card` succeeds) or passes through unchanged; there is a single
recursive call, whose results are prefixed with the play, if any. -/
def make_plays_core :
    Nat → PlayerState → Nat → List (List TurnAction × PlayerState)
  | 0, initial_state, _ => [([], initial_state)]
  | fuel + 1, initial_state, next_card_index =>
    match initial_state.cards_in_hand[next_card_index]? with
    | none => [([], initial_state)]
    | some card =>
      match play_card initial_state next_card_index with
      | none =>
        make_plays_core fuel initial_state (next_card_index + 1)
      | some state =>
        (make_plays_core fuel state (next_card_index + 1)).map
          (fun p => (TurnAction.PlayCard card :: p.1, p.2))

/-- Embeds `sim.rs` `make_all_possible_plays_recursively`, started as
`make_all_possible_plays` does with the cursor at index 0. -/
def make_all_possible_plays (initial_state : PlayerState) :
    List (List TurnAction × PlayerState) :=
  make_plays_core initial_state.cards_in_hand.length initial_state 0

/-- Embeds the purchase-subset selection loop of
`get_possible_generation_plays`: card `i` of the offered list is purchased
exactly when bit `i` of the variation is set. -/
def select_purchased (offered_cards : List Card) (variation : Nat) :
    List Card :=
  (offered_cards.enum.filterMap (fun e =>
    if variation &&& (1 <<< e.1) ≠ 0 then some e.2 else none))

/-- Embeds the closure the source maps over `possible_plays.drain(..)`:
`purchased_cards.drain(..)` inside that closure empties the purchased list
at its first execution, so the first result receives the purchased cards
and every later result of the same variation receives the empty list. -/
def distribute_purchased (purchased_cards : List Card)
    (possible_plays : List (List TurnAction × PlayerState)) :
    List (List Card × List TurnAction × PlayerState) :=
  match possible_plays with
  | [] => []
  | p :: rest =>
    (purchased_cards, p.1, p.2) :: rest.map (fun q => ([], q.1, q.2))

/-- Embeds `sim.rs` `get_possible_generation_plays`.  The outer `Option`
models the `assert!(offered_cards.len() <= 10)` panic; the result
accumulation loop over all `2^n` purchase variations becomes a `flatMap`,
with unaffordable variations contributing nothing (the `continue` arm).
The `opponent_states` argument is carried but, as in the source, never
read. -/
def get_possible_generation_plays (initial_state : PlayerState)
    (opponent_states : List PlayerState) (offered_cards : List Card) :
    Option (List (List Card × List TurnAction × PlayerState)) :=
  if offered_cards.length ≤ 10 then
    some ((List.range (2 ^ offered_cards.length)).flatMap (fun variation =>
      let purchased_cards := select_purchased offered_cards variation
      match purchase_cards initial_state purchased_cards with
      | none => []
      | some current_state =>
        distribute_purchased purchased_cards
          (make_all_possible_plays current_state)))
  else none

/-! Theorems.  One theorem per claim, with the concrete inputs used by
counterexamples and witnesses defined just before their theorems. -/

theorem purchase_cards_eq_def (s : PlayerState) (cards : List Card) :
    purchase_cards s cards =
      if s.resources.megacredits < cards.length * CARD_PURCHASE_COST then none
      else
        some { s with
          cards_in_hand := s.cards_in_hand ++ cards,
          resources :=
            { s.resources with
              megacredits :=
                s.resources.megacredits - cards.length * CARD_PURCHASE_COST } } :=
  rfl

/-- C10: purchasing an empty card list always succeeds and is the identity
on the player state: the cost is zero, the megacredit balance is rewritten
to its prior value, and the hand is extended by nothing. -/
theorem purchase_cards_empty_identity (s : PlayerState) :
    purchase_cards s [] = some s := by
  simp [purchase_cards_eq_def]

/-- C8: `purchase_cards` fails (returning `none`, mutating nothing) exactly
when the megacredit balance is below `len(cards) * CARD_PURCHASE_COST`;
otherwise it deducts exactly that cost from megacredits and appends exactly
the given cards to the hand, leaving every other field of the player
unchanged. -/
theorem purchase_cards_correct (s : PlayerState) (cards : List Card) :
    (s.resources.megacredits < cards.length * CARD_PURCHASE_COST →
      purchase_cards s cards = none) ∧
    (cards.length * CARD_PURCHASE_COST ≤ s.resources.megacredits →
      purchase_cards s cards =
        some { s with
          cards_in_hand := s.cards_in_hand ++ cards,
          resources :=
            { s.resources with
              megacredits :=
                s.resources.megacredits -
                  cards.length * CARD_PURCHASE_COST } }) := by
  constructor
  · intro h
    simp [purchase_cards_eq_def, h]
  · intro h
    simp [purchase_cards_eq_def, Nat.not_lt.mpr h]

def c8_card : Card :=
  { name := "Sample", kind := CardKind.Automatic, tags := [],
    cost := PaymentCost.Megacredits 7, requirements := [], points := none,
    own_production := [], any_production := [], immediate_impacts := [],
    actions := [], effects := [], next_card_this_generation_effects := [] }

def c8_rich_player : PlayerState :=
  { player_id := PlayerId.mk 1,
    resources := Resources.mk 7 0 0 0 0 0,
    production := Production.mk 0 0 0 0 0 0,
    played_cards := [], card_resources := [], tapped_active_cards := [],
    cards_in_hand := [], terraform_rating := 20,
    steel_value := DEFAULT_STEEL_VALUE,
    titanium_value := DEFAULT_TITANIUM_VALUE,
    next_card_this_generation_effects := [], effects := [] }

def c8_poor_player : PlayerState :=
  { c8_rich_player with resources := Resources.mk 5 0 0 0 0 0 }

theorem purchase_cards_correct_witness :
    purchase_cards c8_rich_player [c8_card, c8_card] =
      some { c8_rich_player with
        cards_in_hand := [c8_card, c8_card],
        resources := Resources.mk 1 0 0 0 0 0 } ∧
    purchase_cards c8_poor_player [c8_card, c8_card] = none := by
  constructor
  · exact ((purchase_cards_correct c8_rich_player [c8_card, c8_card]).2
      (by decide)).trans rfl
  · exact (purchase_cards_correct c8_poor_player [c8_card, c8_card]).1
      (by decide)

def c1_card : Card :=
  { name := "Oxygen Gated", kind := CardKind.Automatic, tags := [],
    cost := PaymentCost.Megacredits 5,
    requirements := [CardRequirement.MinOxygen 1], points := none,
    own_production := [], any_production := [], immediate_impacts := [],
    actions := [], effects := [], next_card_this_generation_effects := [] }

def c1_player : PlayerState :=
  { player_id := PlayerId.mk 1,
    resources := Resources.mk 10 0 0 0 0 0,
    production := Production.mk 0 0 0 0 0 0,
    played_cards := [], card_resources := [], tapped_active_cards := [],
    cards_in_hand := [], terraform_rating := 20,
    steel_value := DEFAULT_STEEL_VALUE,
    titanium_value := DEFAULT_TITANIUM_VALUE,
    next_card_this_generation_effects := [], effects := [] }

def c1_board_high_oxygen : MarsBoard :=
  { board_name := "Test", spaces := [], cities := [], oceans := [],
    greeneries := [], special_tiles := [], oxygen := 3, temperature := -30 }

def c1_board_low_oxygen : MarsBoard :=
  { c1_board_high_oxygen with oxygen := 0 }

/-- C1: the requirement check of `can_play_card` is inverted.  With oxygen
at 3 the `MinOxygen(1)` requirement is satisfied, yet the card is rejected
(`some none`); with oxygen at 0 the same requirement is violated, yet the
card is accepted and its affordable cost returned.  Each arm of the match
the source feeds to `any()` computes the condition under which the
requirement HOLDS, but the result is used as `fails_requirements`, so the
function returns `None` exactly when some requirement is satisfied —
the opposite of the claim and of the spec. -/
theorem can_play_card_rejects_satisfied_requirements :
    can_play_card c1_player c1_board_high_oxygen c1_card = some none ∧
    can_play_card c1_player c1_board_low_oxygen c1_card =
      some (some (PaymentCost.Megacredits 5)) := by
  exact ⟨rfl, rfl⟩

def c6_player : PlayerState :=
  { player_id := PlayerId.mk 1,
    resources := Resources.mk 0 0 0 0 0 0,
    production := Production.mk 0 0 0 0 1 0,
    played_cards := [], card_resources := [], tapped_active_cards := [],
    cards_in_hand := [], terraform_rating := 0,
    steel_value := DEFAULT_STEEL_VALUE,
    titanium_value := DEFAULT_TITANIUM_VALUE,
    next_card_this_generation_effects := [], effects := [] }

/-- C6 counterexample: a player with energy production 1 ends the
generation advance with Energy equal to 1, not 0 — the production loop
runs after energy is zeroed and adds the energy production back in. -/
theorem advance_generation_energy_not_zero :
    (advance_generation c6_player).map (fun p => p.resources.energy) =
      some 1 ∧ (1 : Nat) ≠ 0 := by
  exact ⟨rfl, by decide⟩

/-- C6 (amended): when applying production leaves every balance
non-negative, `advance_generation` succeeds; afterwards the tapped-card set
is empty, all prior energy has converted to heat, megacredits have grown by
the terraform rating, every resource has then grown by its production
value, and in particular the Energy resource equals the energy production
(the prior energy amount is zeroed before production is applied), not 0. -/
theorem advance_generation_spec (s : PlayerState)
    (h1 : 0 ≤ (s.resources.megacredits : Int) + (s.terraform_rating : Int) +
      s.production.megacredits)
    (h2 : 0 ≤ (s.resources.steel : Int) + s.production.steel)
    (h3 : 0 ≤ (s.resources.titanium : Int) + s.production.titanium)
    (h4 : 0 ≤ (s.resources.plants : Int) + s.production.plants)
    (h5 : 0 ≤ s.production.energy)
    (h6 : 0 ≤ (s.resources.heat : Int) + (s.resources.energy : Int) +
      s.production.heat) :
    advance_generation s =
      some { s with
        resources := Resources.mk
          ((s.resources.megacredits : Int) + (s.terraform_rating : Int) +
            s.production.megacredits).toNat
          ((s.resources.steel : Int) + s.production.steel).toNat
          ((s.resources.titanium : Int) + s.production.titanium).toNat
          ((s.resources.plants : Int) + s.production.plants).toNat
          s.production.energy.toNat
          ((s.resources.heat : Int) + (s.resources.energy : Int) +
            s.production.heat).toNat,
        tapped_active_cards := [],
        next_card_this_generation_effects := [] } := by
  unfold advance_generation apply_production add_production
  simp only [Option.bind_eq_bind, Option.bind]
  norm_num
  rw [if_pos h1, if_pos h2, if_pos h3, if_pos h4, if_pos h5, if_pos h6]

def c6_witness_player : PlayerState :=
  { player_id := PlayerId.mk 2,
    resources := Resources.mk 5 1 1 1 2 3,
    production := Production.mk (-2) 0 1 0 4 1,
    played_cards := [], card_resources := [], tapped_active_cards := [],
    cards_in_hand := [], terraform_rating := 3,
    steel_value := DEFAULT_STEEL_VALUE,
    titanium_value := DEFAULT_TITANIUM_VALUE,
    next_card_this_generation_effects := [], effects := [] }

theorem advance_generation_spec_witness :
    advance_generation c6_witness_player =
      some { c6_witness_player with resources := Resources.mk 6 1 2 1 4 6 } :=
  (advance_generation_spec c6_witness_player (by decide) (by decide)
    (by decide) (by decide) (by decide) (by decide)).trans rfl

def c3_deck_card : Card :=
  { name := "Deck Card", kind := CardKind.Automatic, tags := [],
    cost := PaymentCost.Megacredits 1, requirements := [], points := none,
    own_production := [], any_production := [], immediate_impacts := [],
    actions := [], effects := [], next_card_this_generation_effects := [] }

def c3_discard_card_one : Card :=
  { c3_deck_card with name := "Discard Card One" }

def c3_discard_card_two : Card :=
  { c3_deck_card with name := "Discard Card Two" }

def c3_player : PlayerState :=
  { player_id := PlayerId.mk 1,
    resources := Resources.mk 0 0 0 0 0 0,
    production := Production.mk 0 0 0 0 0 0,
    played_cards := [], card_resources := [], tapped_active_cards := [],
    cards_in_hand := [], terraform_rating := 20,
    steel_value := DEFAULT_STEEL_VALUE,
    titanium_value := DEFAULT_TITANIUM_VALUE,
    next_card_this_generation_effects := [], effects := [] }

def c3_game : Game :=
  { board :=
      { board_name := "Test3", spaces := [], cities := [], oceans := [],
        greeneries := [], special_tiles := [], oxygen := 0,
        temperature := -30 },
    players := [(PlayerId.mk 1, c3_player)],
    draw_deck := [c3_deck_card],
    discard_pile := [c3_discard_card_one, c3_discard_card_two] }

/-- C3: `DrawCards(player, 2)` on a deck of 1 card and a discard pile of 2
grows the hand by 3 cards, not the requested 2.  The reshuffle branch runs
`count -= self.draw_deck.len()` only after `drain(..)` has emptied the
deck, so `count` is never reduced and the player receives the whole old
deck plus `count` more cards.  The identity shuffle is used; the drawn
count does not depend on the shuffle order. -/
theorem draw_cards_overdraws_on_reshuffle :
    execute_operation (fun l => l) c3_game
        (GameOperation.DrawCards (PlayerId.mk 1) 2) =
      some { c3_game with
        players := [(PlayerId.mk 1,
          { c3_player with
            cards_in_hand :=
              [c3_deck_card, c3_discard_card_one, c3_discard_card_two] })],
        draw_deck := [],
        discard_pile := [] } ∧
    [c3_deck_card, c3_discard_card_one, c3_discard_card_two].length = 3 ∧
    (3 : Nat) ≠ 2 := by
  refine ⟨rfl, rfl, by decide⟩

def c4_space : BoardSpace :=
  { name := none, location := TileLocation.OnMars (Coordinates.mk 0 0),
    designations := [Designation.Land], placement_bonus := [] }

def c4_board : MarsBoard :=
  { board_name := "Test4",
    spaces := [(TileLocation.OnMars (Coordinates.mk 0 0), c4_space)],
    cities := [], oceans := [], greeneries := [], special_tiles := [],
    oxygen := 0, temperature := -30 }

def c4_player : PlayerState :=
  { player_id := PlayerId.mk 1,
    resources := Resources.mk 0 0 0 0 0 0,
    production := Production.mk 0 0 0 0 0 0,
    played_cards := [], card_resources := [], tapped_active_cards := [],
    cards_in_hand := [], terraform_rating := 20,
    steel_value := DEFAULT_STEEL_VALUE,
    titanium_value := DEFAULT_TITANIUM_VALUE,
    next_card_this_generation_effects := [], effects := [] }

/-- C4: an `AdjacentToOwnedTileIfAble` restriction in the list makes
`can_place_city` abort (`unimplemented!()` panics, modelled as `none`)
instead of being treated as always satisfied: the identical call without
the restriction succeeds and inserts the city.  The source's own comment
in `card.rs` describes the restriction as "if able, but ignored if
unable", so the panic contradicts the documented intent. -/
theorem adjacent_owned_if_able_aborts :
    can_place_city c4_board c4_player (TileLocation.OnMars (Coordinates.mk 0 0))
        CityKind.RegularCity [LocationRestriction.AdjacentToOwnedTileIfAble] =
      none ∧
    can_place_city c4_board c4_player (TileLocation.OnMars (Coordinates.mk 0 0))
        CityKind.RegularCity [] =
      some (some (),
        { c4_board with
          cities := [(TileLocation.OnMars (Coordinates.mk 0 0),
            (CityKind.RegularCity, PlayerId.mk 1))] }) := by
  exact ⟨rfl, rfl⟩

/-- States, restriction by restriction, when the current board violates a
location restriction, following the spec's restriction table.
`AdjacentToOwnedTileIfAble` is never violated (the spec reads it as always
satisfied). -/
def restriction_violated (b : MarsBoard) (pid : PlayerId)
    (loc : TileLocation) (space : BoardSpace) : LocationRestriction → Bool
  | .LandTile => !space.is_land
  | .ReservedForOcean => !space.is_reserved_for_ocean
  | .OnSteelOrTitaniumPlacementBonus =>
      !(space.placement_bonus.any (fun impact => match impact with
        | .GainResource Resource.Steel _ => true
        | .GainResource Resource.Titanium _ => true
        | _ => false))
  | .AtSpecialLocation special_location =>
      !(space.designations.any (fun d => match d with
        | .Special s => decide (s = special_location)
        | _ => false))
  | .AdjacentToOwnedTile => decide (adjacent_owned_tiles b pid loc = 0)
  | .AdjacentToOwnedTileIfAble => false
  | .NotNextToAnyOtherTile =>
      decide (adjacent_tiles_of_any_kind b loc ≠ 0)
  | .NotNextToACity => decide (adjacent_cities_count b loc ≠ 0)
  | .NextToACity => decide (adjacent_cities_count b loc < 1)
  | .NextToAtLeastTwoCities => decide (adjacent_cities_count b loc < 2)
  | .NextToAGreenery => decide (adjacent_greeneries_count b loc < 1)

theorem check_restriction_eq_not_violated (b : MarsBoard) (pid : PlayerId)
    (loc : TileLocation) (space : BoardSpace) (r : LocationRestriction)
    (hr : r ≠ LocationRestriction.AdjacentToOwnedTileIfAble) :
    check_restriction b pid loc space r =
      some (!restriction_violated b pid loc space r) := by
  cases r <;>
    first
    | exact absurd rfl hr
    | (simp [check_restriction, restriction_violated, decide_not,
        Bool.not_not]
       done)
    | (simp only [check_restriction, restriction_violated]
       rw [← decide_not]
       exact congrArg some (decide_eq_decide.mpr (by omega)))

theorem check_restrictions_reject (b : MarsBoard) (pid : PlayerId)
    (loc : TileLocation) (space : BoardSpace)
    (restrs : List LocationRestriction)
    (hno : LocationRestriction.AdjacentToOwnedTileIfAble ∉ restrs)
    (hviol : ∃ r ∈ restrs, restriction_violated b pid loc space r = true) :
    check_restrictions b pid loc space restrs = some false := by
  induction restrs with
  | nil => simp at hviol
  | cons r rest ih =>
    have hr : r ≠ LocationRestriction.AdjacentToOwnedTileIfAble := by
      intro h
      exact hno (h ▸ List.mem_cons_self r rest)
    have hrest : LocationRestriction.AdjacentToOwnedTileIfAble ∉ rest := by
      intro h
      exact hno (List.mem_cons_of_mem r h)
    rw [check_restrictions,
      check_restriction_eq_not_violated b pid loc space r hr]
    by_cases hv : restriction_violated b pid loc space r = true
    · simp [hv]
    · simp only [Bool.not_eq_true] at hv
      simp only [hv, Bool.not_false]
      rcases hviol with ⟨r2, hmem, hr2⟩
      rcases List.mem_cons.mp hmem with h | h
      · rw [h] at hr2
        rw [hr2] at hv
        cases hv
      · exact ih hrest ⟨r2, h, hr2⟩

/-- C7 (amended): for a location that exists among the board's spaces, and
a restriction list with no `AdjacentToOwnedTileIfAble` entry, if the
current board violates any restriction in the list then `can_place_city`
returns the rejection (`None` in the source) and the board is returned
entirely unchanged. -/
theorem can_place_city_rejects_without_mutation (b : MarsBoard)
    (player : PlayerState) (loc : TileLocation) (kind : CityKind)
    (restrs : List LocationRestriction) (space : BoardSpace)
    (hspace : alookup b.spaces loc = some space)
    (hno : LocationRestriction.AdjacentToOwnedTileIfAble ∉ restrs)
    (hviol : ∃ r ∈ restrs,
      restriction_violated b player.player_id loc space r = true) :
    can_place_city b player loc kind restrs = some (none, b) := by
  simp only [can_place_city, hspace,
    check_restrictions_reject b player.player_id loc space restrs hno hviol]

def c7_space : BoardSpace :=
  { name := none, location := TileLocation.OnMars (Coordinates.mk 0 0),
    designations := [Designation.Land], placement_bonus := [] }

def c7_board : MarsBoard :=
  { board_name := "Test7",
    spaces := [(TileLocation.OnMars (Coordinates.mk 0 0), c7_space)],
    cities := [], oceans := [], greeneries := [], special_tiles := [],
    oxygen := 0, temperature := -30 }

def c7_player : PlayerState :=
  { player_id := PlayerId.mk 1,
    resources := Resources.mk 0 0 0 0 0 0,
    production := Production.mk 0 0 0 0 0 0,
    played_cards := [], card_resources := [], tapped_active_cards := [],
    cards_in_hand := [], terraform_rating := 20,
    steel_value := DEFAULT_STEEL_VALUE,
    titanium_value := DEFAULT_TITANIUM_VALUE,
    next_card_this_generation_effects := [], effects := [] }

/-- C7 counterexample: the restriction list
`[AdjacentToOwnedTileIfAble, NextToACity]` contains a violated restriction
(`NextToACity`, the location has zero adjacent cities), yet
`can_place_city` does not return the unchanged-board rejection: it aborts
(`unimplemented!()`) at the `AdjacentToOwnedTileIfAble` entry reached
first. -/
theorem can_place_city_abort_before_violation :
    can_place_city c7_board c7_player
        (TileLocation.OnMars (Coordinates.mk 0 0)) CityKind.RegularCity
        [LocationRestriction.AdjacentToOwnedTileIfAble,
          LocationRestriction.NextToACity] = none ∧
    adjacent_cities_count c7_board (TileLocation.OnMars (Coordinates.mk 0 0)) =
      0 := by
  exact ⟨rfl, by decide⟩

def c7w_space : BoardSpace :=
  { name := none, location := TileLocation.OnMars (Coordinates.mk 1 0),
    designations := [Designation.Land], placement_bonus := [] }

def c7w_board : MarsBoard :=
  { board_name := "Test7w",
    spaces := [(TileLocation.OnMars (Coordinates.mk 1 0), c7w_space)],
    cities := [], oceans := [],
    greeneries := [(Coordinates.mk 1 (-1), PlayerId.mk 2)],
    special_tiles := [], oxygen := 0, temperature := -30 }

theorem can_place_city_rejects_without_mutation_witness :
    can_place_city c7w_board c7_player
        (TileLocation.OnMars (Coordinates.mk 1 0)) CityKind.RegularCity
        [LocationRestriction.NotNextToAnyOtherTile] =
      some (none, c7w_board) := by
  exact can_place_city_rejects_without_mutation c7w_board c7_player
    (TileLocation.OnMars (Coordinates.mk 1 0)) CityKind.RegularCity
    [LocationRestriction.NotNextToAnyOtherTile] c7w_space rfl (by decide)
    ⟨LocationRestriction.NotNextToAnyOtherTile, by decide, by decide⟩

/-- How many of the four occupancy indexes (cities, oceans, greeneries,
special tiles) hold the given location.  Off-Mars locations can only appear
in the cities index. -/
def occupancy_count (b : MarsBoard) (loc : TileLocation) : Nat :=
  (if (alookup b.cities loc).isSome then 1 else 0) +
  (match loc with
    | .OffMars _ => 0
    | .OnMars c =>
      (if c ∈ b.oceans then 1 else 0) +
      (if (alookup b.greeneries c).isSome then 1 else 0) +
      (if (alookup b.special_tiles c).isSome then 1 else 0))

theorem dedup_length_eq_iff_nodup {α : Type} [DecidableEq α] (l : List α)
    (h : l.dedup.length = l.length) : l.Nodup := by
  have heq : l.dedup = l :=
    List.Sublist.eq_of_length (List.dedup_sublist l) h
  rw [← heq]
  exact List.nodup_dedup l

/-- A board accepted by `MarsBoard::new` satisfies the exclusivity
invariant: the occupied-locations cardinality check forces the four key
lists, which are duplicate-free as images of hash containers, to be
pairwise disjoint. -/
theorem new_exclusive (board_name : String)
    (spaces : List (TileLocation × BoardSpace))
    (cities : List (TileLocation × (CityKind × PlayerId)))
    (oceans : List Coordinates) (greeneries : List (Coordinates × PlayerId))
    (special_tiles : List (Coordinates × (SpecialTile × PlayerId)))
    (oxygen : Nat) (temperature : Int) (b : MarsBoard)
    (hn1 : (cities.map Prod.fst).Nodup) (hn2 : oceans.Nodup)
    (hn3 : (greeneries.map Prod.fst).Nodup)
    (hn4 : (special_tiles.map Prod.fst).Nodup)
    (hnew : MarsBoard.new board_name spaces cities oceans greeneries
      special_tiles oxygen temperature = some b) :
    ∀ loc, occupancy_count b loc ≤ 1 := by
  simp only [MarsBoard.new] at hnew
  split at hnew
  case isFalse => cases hnew
  case isTrue hlen =>
    cases hnew
    have hnodup : (cities.map Prod.fst ++ oceans.map TileLocation.OnMars ++
        (greeneries.map Prod.fst).map TileLocation.OnMars ++
        (special_tiles.map Prod.fst).map TileLocation.OnMars).Nodup := by
      apply dedup_length_eq_iff_nodup
      rw [hlen]
      simp only [List.length_append, List.length_map]
    rw [List.nodup_append] at hnodup
    obtain ⟨hnodup3, -, hd4⟩ := hnodup
    rw [List.nodup_append] at hnodup3
    obtain ⟨hnodup2, -, hd3⟩ := hnodup3
    rw [List.nodup_append] at hnodup2
    obtain ⟨-, -, d_co⟩ := hnodup2
    rw [List.disjoint_append_left] at hd3
    obtain ⟨d_cg, d_og⟩ := hd3
    rw [List.disjoint_append_left] at hd4
    obtain ⟨hd4a, d_gs⟩ := hd4
    rw [List.disjoint_append_left] at hd4a
    obtain ⟨d_cs, d_os⟩ := hd4a
    intro loc
    cases loc with
    | OffMars s =>
      simp only [occupancy_count]
      split <;> omega
    | OnMars c =>
      by_cases h1 :
          (alookup cities (TileLocation.OnMars c)).isSome = true
      · have hm1 := (alookup_isSome_iff_mem cities
          (TileLocation.OnMars c)).mp h1
        have no2 : ¬ c ∈ oceans := fun hm =>
          d_co hm1 (List.mem_map_of_mem TileLocation.OnMars hm)
        have no3 : ¬ (alookup greeneries c).isSome = true := fun hs =>
          d_cg hm1 (List.mem_map_of_mem TileLocation.OnMars
            ((alookup_isSome_iff_mem greeneries c).mp hs))
        have no4 : ¬ (alookup special_tiles c).isSome = true := fun hs =>
          d_cs hm1 (List.mem_map_of_mem TileLocation.OnMars
            ((alookup_isSome_iff_mem special_tiles c).mp hs))
        simp [occupancy_count, h1, no2, no3, no4]
      · by_cases h2 : c ∈ oceans
        · have hm2 := List.mem_map_of_mem TileLocation.OnMars h2
          have no3 : ¬ (alookup greeneries c).isSome = true := fun hs =>
            d_og hm2 (List.mem_map_of_mem TileLocation.OnMars
              ((alookup_isSome_iff_mem greeneries c).mp hs))
          have no4 : ¬ (alookup special_tiles c).isSome = true := fun hs =>
            d_os hm2 (List.mem_map_of_mem TileLocation.OnMars
              ((alookup_isSome_iff_mem special_tiles c).mp hs))
          simp [occupancy_count, h1, h2, no3, no4]
        · by_cases h3 : (alookup greeneries c).isSome = true
          · have hm3 := List.mem_map_of_mem TileLocation.OnMars
              ((alookup_isSome_iff_mem greeneries c).mp h3)
            have no4 : ¬ (alookup special_tiles c).isSome = true := fun hs =>
              d_gs hm3 (List.mem_map_of_mem TileLocation.OnMars
                ((alookup_isSome_iff_mem special_tiles c).mp hs))
            simp [occupancy_count, h1, h2, h3, no4]
          · by_cases h4 : (alookup special_tiles c).isSome = true <;>
              simp [occupancy_count, h1, h2, h3, h4]

theorem with_player_board (g : Game) (pid : PlayerId)
    (f : PlayerState → Option PlayerState) (g2 : Game)
    (h : with_player g pid f = some g2) : g2.board = g.board := by
  unfold with_player at h
  cases halook : alookup g.players pid with
  | none => rw [halook] at h; cases h
  | some player =>
    rw [halook] at h
    dsimp only at h
    cases hf : f player with
    | none => rw [hf] at h; cases h
    | some p2 =>
      rw [hf] at h
      cases h
      rfl

/-- Every successfully applied `execute_operation` preserves the
exclusivity invariant: the non-placement operations leave the four indexes
untouched, and each placement operation asserts the target location free in
all four indexes before inserting. -/
theorem exec_op_occ (shuffle : List Card → List Card) (g : Game)
    (op : GameOperation) (g2 : Game)
    (h : execute_operation shuffle g op = some g2)
    (hocc : ∀ loc, occupancy_count g.board loc ≤ 1) :
    ∀ loc, occupancy_count g2.board loc ≤ 1 := by
  cases op with
  | ChangeResources pid deltas =>
    simp only [execute_operation] at h
    rw [with_player_board g pid _ g2 h]
    exact hocc
  | ChangeProduction pid deltas =>
    simp only [execute_operation] at h
    rw [with_player_board g pid _ g2 h]
    exact hocc
  | ChangeCardResource pid card cr amount =>
    simp only [execute_operation] at h
    rw [with_player_board g pid _ g2 h]
    exact hocc
  | DrawCards pid count =>
    simp only [execute_operation] at h
    split at h
    · cases h
    · split at h
      · split at h
        · cases h
          exact hocc
        · cases h
      · cases h
        exact hocc
  | DiscardCards pid discard =>
    simp only [execute_operation] at h
    split at h
    · cases h
    · split at h
      · cases h
        exact hocc
      · cases h
  | PutCardIntoPlay pid card =>
    simp only [execute_operation] at h
    rw [with_player_board g pid _ g2 h]
    exact hocc
  | RaiseTerraformRating pid amount =>
    simp only [execute_operation] at h
    rw [with_player_board g pid _ g2 h]
    exact hocc
  | AddEffect pid effect =>
    simp only [execute_operation] at h
    rw [with_player_board g pid _ g2 h]
    exact hocc
  | MarkCardActionUsed pid card =>
    simp only [execute_operation] at h
    rw [with_player_board g pid _ g2 h]
    exact hocc
  | ResetCardActions =>
    simp only [execute_operation] at h
    cases h
    exact hocc
  | ClaimMilestone =>
    simp only [execute_operation] at h
    cases h
  | FundAward =>
    simp only [execute_operation] at h
    cases h
  | RaiseTemperature =>
    simp only [execute_operation] at h
    split at h
    · cases h
      exact hocc
    · cases h
  | RaiseOxygen =>
    simp only [execute_operation] at h
    split at h
    · cases h
      exact hocc
    · cases h
  | PlaceCityTile pid kind loc0 =>
    cases loc0 with
    | OnMars c =>
      simp only [execute_operation] at h
      split at h
      next hchecks =>
        split at h
        next hfree =>
          cases h
          simp only [Bool.and_eq_true, Bool.not_eq_true', decide_eq_false_iff_not,
            Option.isNone_iff_eq_none] at hchecks
          obtain ⟨⟨hg, hs⟩, ho⟩ := hchecks
          rw [Option.isNone_iff_eq_none] at hfree
          intro loc
          by_cases hl : loc = TileLocation.OnMars c
          · subst hl
            simp [occupancy_count, alookup_cons, hg, hs, ho, hfree]
          · simpa [occupancy_count, alookup_cons, hl] using hocc loc
        next => cases h
      next => cases h
    | OffMars s =>
      simp only [execute_operation] at h
      split at h
      next hfree =>
        cases h
        rw [Option.isNone_iff_eq_none] at hfree
        intro loc
        by_cases hl : loc = TileLocation.OffMars s
        · subst hl
          simp [occupancy_count, alookup_cons, hfree]
        · simpa [occupancy_count, alookup_cons, hl] using hocc loc
      next => cases h
  | PlaceGreenery pid c =>
    simp only [execute_operation] at h
    split at h
    next hchecks =>
      split at h
      next hfree =>
        cases h
        simp only [Bool.and_eq_true, Bool.not_eq_true', decide_eq_false_iff_not,
          Option.isNone_iff_eq_none] at hchecks
        obtain ⟨⟨hc, hs⟩, ho⟩ := hchecks
        rw [Option.isNone_iff_eq_none] at hfree
        intro loc
        cases loc with
        | OffMars s2 => simpa [occupancy_count] using hocc (.OffMars s2)
        | OnMars c2 =>
          by_cases hl : c2 = c
          · subst hl
            simp [occupancy_count, alookup_cons, hc, hs, ho, hfree]
          · simpa [occupancy_count, alookup_cons, hl] using hocc (.OnMars c2)
      next => cases h
    next => cases h
  | PlaceSpecialTile pid tile c =>
    simp only [execute_operation] at h
    split at h
    next hchecks =>
      split at h
      next hfree =>
        cases h
        simp only [Bool.and_eq_true, Bool.not_eq_true', decide_eq_false_iff_not,
          Option.isNone_iff_eq_none] at hchecks
        obtain ⟨⟨hc, hg⟩, ho⟩ := hchecks
        rw [Option.isNone_iff_eq_none] at hfree
        intro loc
        cases loc with
        | OffMars s2 => simpa [occupancy_count] using hocc (.OffMars s2)
        | OnMars c2 =>
          by_cases hl : c2 = c
          · subst hl
            simp [occupancy_count, alookup_cons, hc, hg, ho, hfree]
          · simpa [occupancy_count, alookup_cons, hl] using hocc (.OnMars c2)
      next => cases h
    next => cases h
  | PlaceOcean c =>
    simp only [execute_operation] at h
    split at h
    next hchecks =>
      split at h
      next hcap =>
        split at h
        next hfree =>
          cases h
          simp only [Bool.and_eq_true, Option.isNone_iff_eq_none] at hchecks
          obtain ⟨⟨hc, hg⟩, hs⟩ := hchecks
          simp only [Bool.not_eq_true', decide_eq_false_iff_not] at hfree
          intro loc
          cases loc with
          | OffMars s2 => simpa [occupancy_count] using hocc (.OffMars s2)
          | OnMars c2 =>
            by_cases hl : c2 = c
            · subst hl
              simp [occupancy_count, List.mem_cons, hc, hg, hs, hfree]
            · simpa [occupancy_count, List.mem_cons, hl] using hocc (.OnMars c2)
        next => cases h
      next => cases h
    next => cases h

theorem exec_sequence_occ (shuffle : List Card → List Card)
    (ops : List GameOperation) :
    ∀ g g2 : Game, exec_sequence shuffle g ops = some g2 →
      (∀ loc, occupancy_count g.board loc ≤ 1) →
      ∀ loc, occupancy_count g2.board loc ≤ 1 := by
  induction ops with
  | nil =>
    intro g g2 h hocc
    simp only [exec_sequence] at h
    cases h
    exact hocc
  | cons op rest ih =>
    intro g g2 h hocc
    simp only [exec_sequence] at h
    cases hop : execute_operation shuffle g op with
    | none => rw [hop] at h; cases h
    | some gmid =>
      rw [hop] at h
      exact ih gmid g2 h (exec_op_occ shuffle g op gmid hop hocc)

/-- C5: starting from any board accepted by `MarsBoard::new` (whose four
hash-container indexes have duplicate-free keys) and applying any sequence
of successful `execute_operation` calls, no `TileLocation` is ever occupied
in more than one of the four occupancy indexes. -/
theorem board_occupancy_exclusive_invariant (board_name : String)
    (spaces : List (TileLocation × BoardSpace))
    (cities : List (TileLocation × (CityKind × PlayerId)))
    (oceans : List Coordinates) (greeneries : List (Coordinates × PlayerId))
    (special_tiles : List (Coordinates × (SpecialTile × PlayerId)))
    (oxygen : Nat) (temperature : Int) (b : MarsBoard)
    (hn1 : (cities.map Prod.fst).Nodup) (hn2 : oceans.Nodup)
    (hn3 : (greeneries.map Prod.fst).Nodup)
    (hn4 : (special_tiles.map Prod.fst).Nodup)
    (hnew : MarsBoard.new board_name spaces cities oceans greeneries
      special_tiles oxygen temperature = some b)
    (shuffle : List Card → List Card)
    (players : List (PlayerId × PlayerState)) (deck discard : List Card)
    (ops : List GameOperation) (g2 : Game)
    (hexec : exec_sequence shuffle (Game.mk b players deck discard) ops =
      some g2) :
    ∀ loc, occupancy_count g2.board loc ≤ 1 :=
  exec_sequence_occ shuffle ops (Game.mk b players deck discard) g2 hexec
    (new_exclusive board_name spaces cities oceans greeneries special_tiles
      oxygen temperature b hn1 hn2 hn3 hn4 hnew)

def c5_board : MarsBoard :=
  { board_name := "W5", spaces := [], cities := [], oceans := [],
    greeneries := [], special_tiles := [], oxygen := 0, temperature := -30 }

def c5_ops : List GameOperation :=
  [GameOperation.PlaceCityTile (PlayerId.mk 1) CityKind.RegularCity
      (TileLocation.OnMars (Coordinates.mk 0 0)),
    GameOperation.PlaceOcean (Coordinates.mk 1 0)]

def c5_final : Game :=
  { board :=
      { board_name := "W5", spaces := [],
        cities := [(TileLocation.OnMars (Coordinates.mk 0 0),
          (CityKind.RegularCity, PlayerId.mk 1))],
        oceans := [Coordinates.mk 1 0], greeneries := [], special_tiles := [],
        oxygen := 0, temperature := -30 },
    players := [], draw_deck := [], discard_pile := [] }

theorem board_occupancy_exclusive_invariant_witness :
    occupancy_count c5_final.board (TileLocation.OnMars (Coordinates.mk 0 0)) ≤
      1 :=
  board_occupancy_exclusive_invariant "W5" [] [] [] [] [] 0 (-30) c5_board
    (by simp) (by simp) (by simp) (by simp) rfl (fun l => l) [] [] [] c5_ops
    c5_final rfl (TileLocation.OnMars (Coordinates.mk 0 0))

/-- Every location held by one of the four occupancy indexes. -/
def occupied_board_locations (b : MarsBoard) : List TileLocation :=
  b.cities.map Prod.fst ++ b.oceans.map TileLocation.OnMars ++
    (b.greeneries.map Prod.fst).map TileLocation.OnMars ++
    (b.special_tiles.map Prod.fst).map TileLocation.OnMars

/-- The exclusivity invariant of the data model, stated over the occupied
locations so that it is decidable on concrete boards; unoccupied locations
trivially have occupancy zero (`board_exclusive_all`). -/
def board_exclusive (b : MarsBoard) : Prop :=
  ∀ loc ∈ occupied_board_locations b, occupancy_count b loc ≤ 1

instance (b : MarsBoard) : Decidable (board_exclusive b) :=
  inferInstanceAs
    (Decidable (∀ loc ∈ occupied_board_locations b, occupancy_count b loc ≤ 1))

theorem board_exclusive_all (b : MarsBoard) (hx : board_exclusive b) :
    ∀ loc, occupancy_count b loc ≤ 1 := by
  intro loc
  by_cases hm : loc ∈ occupied_board_locations b
  · exact hx loc hm
  · simp only [occupied_board_locations, List.mem_append, not_or] at hm
    obtain ⟨⟨⟨hm1, hm2⟩, hm3⟩, hm4⟩ := hm
    cases loc with
    | OffMars s =>
      have h1 : ¬ (alookup b.cities (TileLocation.OffMars s)).isSome = true :=
        fun hs => hm1 ((alookup_isSome_iff_mem _ _).mp hs)
      simp [occupancy_count, h1]
    | OnMars c =>
      have h1 : ¬ (alookup b.cities (TileLocation.OnMars c)).isSome = true :=
        fun hs => hm1 ((alookup_isSome_iff_mem _ _).mp hs)
      have h2 : ¬ c ∈ b.oceans := fun hs =>
        hm2 (List.mem_map_of_mem TileLocation.OnMars hs)
      have h3 : ¬ (alookup b.greeneries c).isSome = true := fun hs =>
        hm3 (List.mem_map_of_mem TileLocation.OnMars
          ((alookup_isSome_iff_mem _ _).mp hs))
      have h4 : ¬ (alookup b.special_tiles c).isSome = true := fun hs =>
        hm4 (List.mem_map_of_mem TileLocation.OnMars
          ((alookup_isSome_iff_mem _ _).mp hs))
      simp [occupancy_count, h1, h2, h3, h4]

theorem occupancy_facts (b : MarsBoard) (hx : board_exclusive b)
    (c : Coordinates) :
    (if (alookup b.cities (TileLocation.OnMars c)).isSome then 1 else 0) +
      ((if c ∈ b.oceans then 1 else 0) +
        (if (alookup b.greeneries c).isSome then 1 else 0) +
        (if (alookup b.special_tiles c).isSome then 1 else 0)) ≤ 1 :=
  board_exclusive_all b hx (TileLocation.OnMars c)

/-- On an exclusive board, a neighbor reads as `Ocean` through the
city-first `get_tile_status` priority exactly when its coordinates are in
the ocean set. -/
theorem status_ocean_pred (b : MarsBoard) (hx : board_exclusive b)
    (c : Coordinates) :
    (match b.get_tile_status (TileLocation.OnMars c) with
      | TileStatus.Ocean _ => true
      | _ => false) = decide (c ∈ b.oceans) := by
  unfold MarsBoard.get_tile_status
  cases hc : alookup b.cities (TileLocation.OnMars c) with
  | some ck =>
    have hno : ¬ c ∈ b.oceans := by
      intro hm
      have hf := occupancy_facts b hx c
      rw [hc] at hf
      simp only [Option.isSome_some, if_true, if_pos hm] at hf
      omega
    simp [hno]
  | none =>
    by_cases hm : c ∈ b.oceans
    · simp [hm]
    · simp only [hm, if_false, decide_eq_false hm]
      cases hg : alookup b.greeneries c with
      | some pid => simp
      | none =>
        cases hs : alookup b.special_tiles c with
        | some tp => simp
        | none => simp

/-- On an exclusive board, a neighbor reads as `Greenery` exactly when its
coordinates are a key of the greeneries index. -/
theorem status_greenery_pred (b : MarsBoard) (hx : board_exclusive b)
    (c : Coordinates) :
    (match b.get_tile_status (TileLocation.OnMars c) with
      | TileStatus.Greenery _ _ => true
      | _ => false) = (alookup b.greeneries c).isSome := by
  unfold MarsBoard.get_tile_status
  cases hc : alookup b.cities (TileLocation.OnMars c) with
  | some ck =>
    have hno : ¬ (alookup b.greeneries c).isSome = true := by
      intro hg
      have hf := occupancy_facts b hx c
      rw [hc] at hf
      simp only [Option.isSome_some, if_true, if_pos hg] at hf
      omega
    simp only [Bool.not_eq_true] at hno
    simp [hno]
  | none =>
    by_cases hm : c ∈ b.oceans
    · have hno : ¬ (alookup b.greeneries c).isSome = true := by
        intro hg
        have hf := occupancy_facts b hx c
        rw [if_pos hm, if_pos hg] at hf
        omega
      simp only [Bool.not_eq_true] at hno
      simp [hm, hno]
    · simp only [hm, if_false]
      cases hg : alookup b.greeneries c with
      | some pid => simp
      | none =>
        cases hs : alookup b.special_tiles c with
        | some tp => simp
        | none => simp

/-- Number of neighbors of a location whose coordinates are in the ocean
set (the spec's ocean-adjacency count for capital scoring). -/
def adjacent_ocean_tiles (b : MarsBoard) (loc : TileLocation) : Nat :=
  loc.neighbors_within_bounds.countP (fun n =>
    match n with
    | .OnMars c => decide (c ∈ b.oceans)
    | .OffMars _ => false)

/-- Number of neighbors of a location held by the greeneries index,
regardless of owner (the spec's greenery-adjacency count for city
scoring). -/
def adjacent_greenery_tiles (b : MarsBoard) (loc : TileLocation) : Nat :=
  loc.neighbors_within_bounds.countP (fun n =>
    match n with
    | .OnMars c => (alookup b.greeneries c).isSome
    | .OffMars _ => false)

/-- Number of greeneries owned by the player (the spec's one point per
owned greenery). -/
def owned_greenery_count (b : MarsBoard) (pid : PlayerId) : Nat :=
  b.greeneries.countP (fun g => decide (g.2 = pid))

/-- The spec's per-owned-city bonus: one point per adjacent greenery of any
owner, plus, for a Capital, one point per adjacent ocean. -/
def city_bonus (b : MarsBoard) (pid : PlayerId) : Nat :=
  (b.cities.filter (fun e => decide (e.2.2 = pid))).foldl
    (fun acc e =>
      acc + ((if e.2.1 = CityKind.Capital then adjacent_ocean_tiles b e.1
          else 0) +
        adjacent_greenery_tiles b e.1)) 0

theorem neighbor_status_count_ocean (b : MarsBoard) (hx : board_exclusive b)
    (loc : TileLocation) :
    (b.get_neighbor_tile_status loc).countP (fun st =>
      match st with
      | TileStatus.Ocean _ => true
      | _ => false) = adjacent_ocean_tiles b loc := by
  unfold MarsBoard.get_neighbor_tile_status adjacent_ocean_tiles
  rw [List.countP_map]
  cases loc with
  | OffMars s => simp [TileLocation.neighbors_within_bounds]
  | OnMars c =>
    simp only [TileLocation.neighbors_within_bounds, List.countP_map]
    apply List.countP_congr
    intro c2 _
    simp only [Function.comp]
    rw [status_ocean_pred b hx c2]

theorem neighbor_status_count_greenery (b : MarsBoard)
    (hx : board_exclusive b) (loc : TileLocation) :
    (b.get_neighbor_tile_status loc).countP (fun st =>
      match st with
      | TileStatus.Greenery _ _ => true
      | _ => false) = adjacent_greenery_tiles b loc := by
  unfold MarsBoard.get_neighbor_tile_status adjacent_greenery_tiles
  rw [List.countP_map]
  cases loc with
  | OffMars s => simp [TileLocation.neighbors_within_bounds]
  | OnMars c =>
    simp only [TileLocation.neighbors_within_bounds, List.countP_map]
    apply List.countP_congr
    intro c2 _
    simp only [Function.comp]
    rw [status_greenery_pred b hx c2]

theorem foldl_add_congr {α : Type} (l : List α) (f g : α → Nat)
    (h : ∀ a ∈ l, f a = g a) :
    ∀ init, l.foldl (fun acc a => acc + f a) init =
      l.foldl (fun acc a => acc + g a) init := by
  induction l with
  | nil => intro init; rfl
  | cons a rest ih =>
    intro init
    simp only [List.foldl_cons]
    rw [h a (List.mem_cons_self a rest)]
    exact ih (fun x hx => h x (List.mem_cons_of_mem a hx)) _

/-- C9: on a board satisfying the exclusivity invariant, whenever the
per-card formulas evaluate (to `card_pts`), the total victory points equal
the terraform rating, plus `card_pts`, plus one point per greenery owned by
the player, plus, for every city owned by the player, one point per
adjacent greenery regardless of that greenery's owner and — if the city is
a Capital — one point per adjacent ocean.  The computation is a pure
function of the inputs. -/
theorem total_victory_points_decomposition (s : PlayerState) (b : MarsBoard)
    (card_pts : Int) (hx : board_exclusive b)
    (hc : sum_card_points s b = some card_pts) :
    get_total_victory_points s b =
      some ((s.terraform_rating : Int) + card_pts +
        (owned_greenery_count b s.player_id : Int) +
        (city_bonus b s.player_id : Int)) := by
  have hfold :
      (b.cities.filter (fun entry => decide (entry.2.2 = s.player_id))).foldl
        (fun acc entry =>
          acc + ((if entry.2.1 = CityKind.Capital then
              (b.get_neighbor_tile_status entry.1).countP (fun st =>
                match st with
                | TileStatus.Ocean _ => true
                | _ => false)
            else 0) +
            (b.get_neighbor_tile_status entry.1).countP (fun st =>
              match st with
              | TileStatus.Greenery _ _ => true
              | _ => false))) 0 = city_bonus b s.player_id := by
    unfold city_bonus
    apply foldl_add_congr
    intro e _
    rw [neighbor_status_count_ocean b hx e.1,
      neighbor_status_count_greenery b hx e.1]
  unfold get_total_victory_points
  simp only [hc]
  rw [hfold]
  rfl

def c9_capital_card : Card :=
  { name := "Capital", kind := CardKind.Automatic, tags := [],
    cost := PaymentCost.Megacredits 26, requirements := [], points := none,
    own_production := [], any_production := [], immediate_impacts := [],
    actions := [], effects := [], next_card_this_generation_effects := [] }

def c9_player : PlayerState :=
  { player_id := PlayerId.mk 1,
    resources := Resources.mk 0 0 0 0 0 0,
    production := Production.mk 0 0 0 0 0 0,
    played_cards := [c9_capital_card], card_resources := [],
    tapped_active_cards := [], cards_in_hand := [], terraform_rating := 20,
    steel_value := DEFAULT_STEEL_VALUE,
    titanium_value := DEFAULT_TITANIUM_VALUE,
    next_card_this_generation_effects := [], effects := [] }

def c9_board : MarsBoard :=
  { board_name := "W9", spaces := [],
    cities := [(TileLocation.OnMars (Coordinates.mk 4 (-5)),
      (CityKind.Capital, PlayerId.mk 1))],
    oceans := [Coordinates.mk 5 (-5), Coordinates.mk 5 (-6),
      Coordinates.mk 4 (-4)],
    greeneries := [(Coordinates.mk 3 (-5), PlayerId.mk 2),
      (Coordinates.mk 4 (-6), PlayerId.mk 2)],
    special_tiles := [], oxygen := 0, temperature := -30 }

theorem total_victory_points_decomposition_witness :
    get_total_victory_points c9_player c9_board = some 25 :=
  (total_victory_points_decomposition c9_player c9_board 0 (by decide)
    rfl).trans (by decide)

theorem purchase_cards_none_iff (s : PlayerState) (cards : List Card) :
    purchase_cards s cards = none ↔
      s.resources.megacredits < cards.length * CARD_PURCHASE_COST := by
  by_cases h : s.resources.megacredits < cards.length * CARD_PURCHASE_COST
  · simp [purchase_cards_eq_def, h]
  · simp [purchase_cards_eq_def, h]

theorem make_plays_core_length (fuel : Nat) :
    ∀ (s : PlayerState) (idx : Nat), (make_plays_core fuel s idx).length = 1 := by
  induction fuel with
  | zero => intro s idx; rfl
  | succ n ih =>
    intro s idx
    rcases hg : s.cards_in_hand[idx]? with _ | card
    · simp [make_plays_core, hg]
    · rcases hp : play_card s idx with _ | s2
      · simp only [make_plays_core, hg, hp]
        exact ih s (idx + 1)
      · simp only [make_plays_core, hg, hp, List.length_map]
        exact ih s2 (idx + 1)

theorem make_all_possible_plays_length (s : PlayerState) :
    (make_all_possible_plays s).length = 1 :=
  make_plays_core_length s.cards_in_hand.length s 0

theorem distribute_purchased_map_fst (purchased : List Card)
    (plays : List (List TurnAction × PlayerState)) (h : plays.length = 1) :
    (distribute_purchased purchased plays).map (fun e => e.1) = [purchased] := by
  cases plays with
  | nil => cases h
  | cons p rest =>
    cases rest with
    | nil => rfl
    | cons q r => simp at h

/-- Spec-side enumeration of the affordable purchase subsets, following the
spec's words: a subset (selected by the bits of each variation, in
variation order) is affordable exactly when its cost — the fixed purchase
price per selected card — is within the player's megacredit balance. -/
def affordable_purchase_subsets (s : PlayerState) (offered : List Card) :
    List (List Card) :=
  (List.range (2 ^ offered.length)).filterMap (fun variation =>
    if (select_purchased offered variation).length * CARD_PURCHASE_COST ≤
        s.resources.megacredits then
      some (select_purchased offered variation)
    else none)

theorem flatMap_map_eq_filterMap {α β γ : Type} (l : List α)
    (g : α → List β) (f : β → γ) (h : α → Option γ)
    (H : ∀ a ∈ l, (g a).map f = (h a).toList) :
    (l.flatMap g).map f = l.filterMap h := by
  induction l with
  | nil => rfl
  | cons a rest ih =>
    have Ha := H a (List.mem_cons_self a rest)
    have Hrest := ih (fun x hx => H x (List.mem_cons_of_mem a hx))
    simp only [List.flatMap_cons, List.map_append, Ha, Hrest]
    cases hh : h a <;> simp [List.filterMap_cons, hh]

/-- C2 (amended): `get_possible_generation_plays` aborts on more than 10
offered cards; otherwise it returns exactly one result per affordable
purchase subset, in variation-enumeration order, and reports that subset as
the purchased cards of its one result.  (The recursion takes a single
play-if-possible-else-skip path through the hand, so each affordable
subset yields exactly one terminal state — the all-pass state only when no
considered card is playable — rather than one result per play-or-skip
combination.) -/
theorem generation_plays_affordable_subsets (s : PlayerState)
    (opps : List PlayerState) (offered : List Card) :
    (10 < offered.length →
      get_possible_generation_plays s opps offered = none) ∧
    (offered.length ≤ 10 →
      ∃ res, get_possible_generation_plays s opps offered = some res ∧
        res.map (fun e => e.1) = affordable_purchase_subsets s offered) := by
  constructor
  · intro h
    unfold get_possible_generation_plays
    rw [if_neg (by omega)]
  · intro h
    refine ⟨(List.range (2 ^ offered.length)).flatMap (fun variation =>
      match purchase_cards s (select_purchased offered variation) with
      | none => []
      | some current_state =>
        distribute_purchased (select_purchased offered variation)
          (make_all_possible_plays current_state)), ?_, ?_⟩
    · unfold get_possible_generation_plays
      rw [if_pos h]
    · apply flatMap_map_eq_filterMap
      intro v _
      cases hp : purchase_cards s (select_purchased offered v) with
      | none =>
        have hlt := (purchase_cards_none_iff s _).mp hp
        have hnle : ¬ (select_purchased offered v).length *
            CARD_PURCHASE_COST ≤ s.resources.megacredits := by omega
        simp [hnle]
      | some st =>
        have hle : (select_purchased offered v).length * CARD_PURCHASE_COST ≤
            s.resources.megacredits := by
          by_contra hn
          rw [(purchase_cards_none_iff s _).mpr (by omega)] at hp
          cases hp
        simp only
        rw [distribute_purchased_map_fst _ _
          (make_all_possible_plays_length st)]
        simp [hle]

def c2_cheap_card : Card :=
  { name := "Free Helper", kind := CardKind.Automatic, tags := [],
    cost := PaymentCost.Megacredits 0, requirements := [], points := none,
    own_production := [], any_production := [], immediate_impacts := [],
    actions := [], effects := [], next_card_this_generation_effects := [] }

def c2_player : PlayerState :=
  { player_id := PlayerId.mk 1,
    resources := Resources.mk 3 0 0 0 0 0,
    production := Production.mk 0 0 0 0 0 0,
    played_cards := [], card_resources := [], tapped_active_cards := [],
    cards_in_hand := [c2_cheap_card], terraform_rating := 20,
    steel_value := DEFAULT_STEEL_VALUE,
    titanium_value := DEFAULT_TITANIUM_VALUE,
    next_card_this_generation_effects := [], effects := [] }

def c2_played_state : PlayerState :=
  { c2_player with cards_in_hand := [], played_cards := [c2_cheap_card] }

/-- C2 counterexample: with no offered cards the empty purchase subset is
affordable, yet the returned list does NOT contain the all-pass terminal
state: the single result for the subset plays the playable card in hand
(its action list is non-empty and its final state differs from the
post-purchase state), because the recursion never explores the skip branch
of a playable card. -/
theorem generation_plays_missing_all_pass_leaf :
    get_possible_generation_plays c2_player [] [] =
      some [([], [TurnAction.PlayCard c2_cheap_card], c2_played_state)] ∧
    [TurnAction.PlayCard c2_cheap_card] ≠ ([] : List TurnAction) := by
  constructor
  · rfl
  · simp

def c2w_player : PlayerState :=
  { c2_player with cards_in_hand := [] }

theorem generation_plays_affordable_subsets_witness :
    (get_possible_generation_plays c2w_player [] [c2_cheap_card]).map
        (fun res => res.map (fun e => e.1)) =
      some [[], [c2_cheap_card]] := by
  obtain ⟨res, hres, hmap⟩ :=
    (generation_plays_affordable_subsets c2w_player [] [c2_cheap_card]).2
      (by decide)
  rw [hres]
  show some (res.map (fun e => e.1)) = some [[], [c2_cheap_card]]
  rw [hmap]
  rfl

end TerraformingMars
